import Mathlib

/-!
# Credential and session lifecycle of the blog API

A shallow embedding of `src/models/User.js`, `src/models/RefreshToken.js`,
`src/utils/jwt.js`, `src/utils/password.js`, `src/middlewares/errorHandler.js`,
`src/middlewares/auth.js` and `src/services/authService.js`, with the two SQLite tables of
`migrations/001_create_users.js` and `migrations/003_create_refresh_tokens.js`
as explicit state.

Conventions.

* The database is a value of type `Db`; every operation that touches it takes the
  state before and returns the state after, also when it throws (there is no
  transaction in the source, so the effects made before a throw stay).
* A thrown JavaScript error is the `error` side of `Except JsError _`.
* Everything the source draws from outside is an argument: `now` is the clock
  (`Date.now()`, milliseconds), `uuidv4()` results are passed in as strings
  (`id`, `jti`), and the `bcrypt` and `jsonwebtoken` libraries are the fields of
  `Env`.
* `logger` calls only write to the console and are left out.
-/

namespace AuthApi

/-! ## JavaScript values, objects and errors -/

/-- The primitive JavaScript values that appear in rows, claims and responses. -/
inductive JsVal where
  | str (s : String)
  | num (n : Nat)
  | bool (b : Bool)
  deriving DecidableEq, Repr

/-- A plain JavaScript object: its own enumerable properties, in insertion order. -/
abbrev JsObject := List (String × JsVal)

/-- Thrown values. `apiError` is `class ApiError` of `errorHandler.js`; `other` is every
other `Error` (a `SqliteError` with its `code`, a `TypeError`, an error of a library). -/
inductive JsError where
  | apiError (statusCode : Nat) (message : String) (details : Option JsObject)
  | other (name : String) (message : String) (code : Option String)
  deriving DecidableEq, Repr

/-- The factory `badRequest(message, details)` of `errorHandler.js`. -/
def badRequest (message : String) (details : Option JsObject) : JsError :=
  .apiError 400 message details

/-- The factory `unauthorized(message)` of `errorHandler.js`. -/
def unauthorized (message : String) : JsError := .apiError 401 message none

/-- The factory `forbidden(message)` of `errorHandler.js`. -/
def forbidden (message : String) : JsError := .apiError 403 message none

/-- The factory `notFound(message)` of `errorHandler.js`. -/
def notFound (message : String) : JsError := .apiError 404 message none

/-- The factory `conflict(message)` of `errorHandler.js`. -/
def conflict (message : String) : JsError := .apiError 409 message none

/-- The factory `internalError(message)` of `errorHandler.js`. -/
def internalError (message : String) : JsError := .apiError 500 message none

/-- The error `better-sqlite3` throws when a statement violates a constraint. Only its
`code` is kept; the text of the message is not modelled and repeats the code. -/
def sqliteError (code : String) : JsError := .other "SqliteError" code (some code)

/-- The `TypeError` of reading a property of `null`. -/
def typeError (message : String) : JsError := .other "TypeError" message none

/-! ## The database -/

/-- A row of table `users` (`migrations/001_create_users.js`), as `SELECT id, email,
password, name, role, created_at as createdAt` returns it. `createdAt` stands for the
`CURRENT_TIMESTAMP` text, kept as seconds since the epoch. -/
structure User where
  id : String
  email : String
  password : String
  name : String
  role : String
  createdAt : Nat
  deriving DecidableEq, Repr

/-- A row of table `refresh_tokens` (`migrations/003_create_refresh_tokens.js`), as
`findById` and `findByToken` return it: the `INTEGER` column `revoked` only ever holds the
default `0` or the `1` the updates write, and is read through `revoked === 1`, so it is a
`Bool`. `expiresAt` stands for the ISO-8601 text of a `Date`, kept as milliseconds since the
epoch. -/
structure RefreshTokenRecord where
  id : String
  userId : String
  token : String
  expiresAt : Nat
  revoked : Bool
  createdAt : Nat
  deriving DecidableEq, Repr

/-- The state of the database: the two tables in rowid order, and whether the connection
enforces foreign keys (`database.pragma` in `connectSqlite`). -/
structure Db where
  users : List User
  refresh_tokens : List RefreshTokenRecord
  foreign_keys : Bool
  deriving DecidableEq, Repr

/-- The text `CURRENT_TIMESTAMP` has a resolution of one second. -/
def currentTimestamp (now : Nat) : Nat := now / 1000

/-! ## `src/models/User.js` -/

/-- The argument of `User.create`; `role` is optional. -/
structure UserData where
  email : String
  password : String
  name : String
  role : Option String
  deriving DecidableEq, Repr

/-- Function `User.findById`: the row whose primary key is `id`, or `null`. -/
def User.findById (db : Db) (id : String) : Option User :=
  db.users.find? (fun u => u.id == id)

/-- Function `User.findByEmail`: the row `WHERE email = ?` (SQLite compares `TEXT` with the `BINARY`
collation, byte for byte), or `null`. -/
def User.findByEmail (db : Db) (email : String) : Option User :=
  db.users.find? (fun u => u.email == email)

/-- Function `User.emailExists`: `findByEmail(email) !== null`. -/
def User.emailExists (db : Db) (email : String) : Bool :=
  (User.findByEmail db email).isSome

/-- Function `User.create`: `role = userData.role || 'user'`, then the `INSERT`, which SQLite refuses
when the `CHECK` on `role`, the primary key or the `UNIQUE` on `email` is violated, then
`findById(id)`. `id` is the result of `uuidv4()`. -/
def User.create (db : Db) (now : Nat) (id : String) (userData : UserData) :
    Except JsError (Option User) × Db :=
  let role := match userData.role with
    | some r => if r = "" then "user" else r
    | none => "user"
  if ¬ (role = "user" ∨ role = "admin") then
    (.error (sqliteError "SQLITE_CONSTRAINT_CHECK"), db)
  else if db.users.any (fun u => u.id == id) then
    (.error (sqliteError "SQLITE_CONSTRAINT_PRIMARYKEY"), db)
  else if db.users.any (fun u => u.email == userData.email) then
    (.error (sqliteError "SQLITE_CONSTRAINT_UNIQUE"), db)
  else
    let row : User :=
      { id := id, email := userData.email, password := userData.password,
        name := userData.name, role := role, createdAt := currentTimestamp now }
    let db1 : Db := { db with users := db.users ++ [row] }
    (.ok (User.findById db1 id), db1)

/-- The object a `users` row is returned as: the columns of the `SELECT`, in order. -/
def User.toObject (u : User) : JsObject :=
  [("id", .str u.id), ("email", .str u.email), ("password", .str u.password),
   ("name", .str u.name), ("role", .str u.role), ("createdAt", .num u.createdAt)]

/-- Function `User.toSafeUser`: `null` for `null`, otherwise `const { password, ...safeUser } = user`:
every property but `password`. -/
def User.toSafeUser (user : Option User) : Option JsObject :=
  match user with
  | none => none
  | some u => some ((User.toObject u).filter (fun kv => kv.1 != "password"))

/-! ## `src/models/RefreshToken.js` -/

/-- The constant `REFRESH_TOKEN_EXPIRY_MS`: seven days in milliseconds. -/
def REFRESH_TOKEN_EXPIRY_MS : Nat := 7 * 24 * 60 * 60 * 1000

/-- The argument of `RefreshToken.create`. -/
structure TokenData where
  userId : String
  token : String
  deriving DecidableEq, Repr

/-- Function `RefreshToken.findById`. -/
def RefreshToken.findById (db : Db) (id : String) : Option RefreshTokenRecord :=
  db.refresh_tokens.find? (fun r => r.id == id)

/-- Function `RefreshToken.findByToken`: the row `WHERE token = ?`, or `null`. -/
def RefreshToken.findByToken (db : Db) (token : String) : Option RefreshTokenRecord :=
  db.refresh_tokens.find? (fun r => r.token == token)

/-- Function `RefreshToken.create`: `expiresAt = Date.now() + REFRESH_TOKEN_EXPIRY_MS`, then the
`INSERT` (with `revoked` at its default `0`), which SQLite refuses when the primary key, the
`UNIQUE` on `token` or, if enforced, the foreign key on `user_id` is violated, then
`findById(id)`. `id` is the result of `uuidv4()`. -/
def RefreshToken.create (db : Db) (now : Nat) (id : String) (tokenData : TokenData) :
    Except JsError (Option RefreshTokenRecord) × Db :=
  let expiresAt := now + REFRESH_TOKEN_EXPIRY_MS
  if db.refresh_tokens.any (fun r => r.id == id) then
    (.error (sqliteError "SQLITE_CONSTRAINT_PRIMARYKEY"), db)
  else if db.refresh_tokens.any (fun r => r.token == tokenData.token) then
    (.error (sqliteError "SQLITE_CONSTRAINT_UNIQUE"), db)
  else if db.foreign_keys && !(db.users.any (fun u => u.id == tokenData.userId)) then
    (.error (sqliteError "SQLITE_CONSTRAINT_FOREIGNKEY"), db)
  else
    let row : RefreshTokenRecord :=
      { id := id, userId := tokenData.userId, token := tokenData.token,
        expiresAt := expiresAt, revoked := false, createdAt := currentTimestamp now }
    let db1 : Db := { db with refresh_tokens := db.refresh_tokens ++ [row] }
    (.ok (RefreshToken.findById db1 id), db1)

/-- Function `RefreshToken.isValid`: `false` for `null`, for a revoked record and for one whose
`expiresAt <= new Date()`; `true` otherwise. -/
def RefreshToken.isValid (tokenRecord : Option RefreshTokenRecord) (now : Nat) : Bool :=
  match tokenRecord with
  | none => false
  | some r =>
    if r.revoked then false
    else if r.expiresAt ≤ now then false
    else true

/-- Function `RefreshToken.revoke`: `UPDATE refresh_tokens SET revoked = 1 WHERE token = ?` and
`result.changes > 0`. SQLite counts in `changes` every row the `WHERE` selects, whether or
not the assignment alters it. -/
def RefreshToken.revoke (db : Db) (token : String) : Bool × Db :=
  let changes := (db.refresh_tokens.filter (fun r => r.token == token)).length
  let db1 : Db :=
    { db with refresh_tokens :=
        db.refresh_tokens.map (fun r => if r.token == token then { r with revoked := true } else r) }
  (decide (changes > 0), db1)

/-- Function `RefreshToken.revokeAllByUserId`:
`UPDATE refresh_tokens SET revoked = 1 WHERE user_id = ? AND revoked = 0` and
`result.changes`. -/
def RefreshToken.revokeAllByUserId (db : Db) (userId : String) : Nat × Db :=
  let changes :=
    (db.refresh_tokens.filter (fun r => r.userId == userId && r.revoked == false)).length
  let db1 : Db :=
    { db with refresh_tokens :=
        db.refresh_tokens.map (fun r =>
          if r.userId == userId && r.revoked == false then { r with revoked := true } else r) }
  (changes, db1)

/-! ## Configuration and the two libraries -/

/-- A value of `config.jwt.accessExpiresIn`: a number of seconds or a text such as
`1h`. -/
inductive ExpiresIn where
  | num (n : Nat)
  | str (s : String)
  deriving DecidableEq, Repr

/-- The object `config.jwt` of `src/config/index.js`. -/
structure JwtConfig where
  secret : String
  accessExpiresIn : ExpiresIn
  refreshExpiresIn : ExpiresIn
  deriving DecidableEq, Repr

/-- What the source takes from `bcrypt` and `jsonwebtoken`, and the configuration.

* `bcryptHash password rounds salt` is `bcrypt.hash(password, rounds)`, `salt` being the
  random salt it draws.
* `bcryptCompare password hash` is `bcrypt.compare(password, hash)`.
* `jwtSign payload secret expiresIn now` is `jwt.sign(payload, secret, { expiresIn })` at
  time `now`; it throws on an `expiresIn` it cannot read.
* `jwtVerify token secret now` is `jwt.verify(token, secret)` at time `now`: the claims, or
  the error it throws.
* `jwtDecode token` is `jwt.decode(token)`. -/
structure Env where
  jwt : JwtConfig
  bcryptHash : String → Nat → String → String
  bcryptCompare : String → String → Bool
  jwtSign : JsObject → String → ExpiresIn → Nat → Except JsError String
  jwtVerify : String → String → Nat → Except JsError JsObject
  jwtDecode : String → Option JsObject

/-! ## `src/utils/password.js` -/

/-- The constant `SALT_ROUNDS`. -/
def SALT_ROUNDS : Nat := 10

/-- Function `hashPassword`: `bcrypt.hash(password, SALT_ROUNDS)`. -/
def hashPassword (env : Env) (salt : String) (password : String) : String :=
  env.bcryptHash password SALT_ROUNDS salt

/-- Function `verifyPassword`: `bcrypt.compare(password, hashedPassword)`. -/
def verifyPassword (env : Env) (password : String) (hashedPassword : String) : Bool :=
  env.bcryptCompare password hashedPassword

/-! ## `src/utils/jwt.js` -/

/-- The argument of `generateAccessToken`. -/
structure AccessPayload where
  userId : String
  email : String
  role : String
  deriving DecidableEq, Repr

/-- Function `generateAccessToken`: signs `{ userId, email, role, type: 'access' }`. -/
def generateAccessToken (env : Env) (now : Nat) (payload : AccessPayload) :
    Except JsError String :=
  env.jwtSign
    [("userId", .str payload.userId), ("email", .str payload.email),
     ("role", .str payload.role), ("type", .str "access")]
    env.jwt.secret env.jwt.accessExpiresIn now

/-- Function `generateRefreshToken`: signs `{ userId, type: 'refresh', jti: uuidv4() }`; `jti` is the
result of that `uuidv4()`. -/
def generateRefreshToken (env : Env) (now : Nat) (jti : String) (userId : String) :
    Except JsError String :=
  env.jwtSign
    [("userId", .str userId), ("type", .str "refresh"), ("jti", .str jti)]
    env.jwt.secret env.jwt.refreshExpiresIn now

/-- Function `verifyToken`: `jwt.verify(token, secret)`, and `null` when that throws. -/
def verifyToken (env : Env) (now : Nat) (token : String) : Option JsObject :=
  match env.jwtVerify token env.jwt.secret now with
  | .ok decoded => some decoded
  | .error _ => none

/-- Function `decodeToken`: `jwt.decode(token)`. -/
def decodeToken (env : Env) (token : String) : Option JsObject :=
  env.jwtDecode token

/-- The value of a text of decimal digits, as `parseInt(text, 10)` reads it when that value
is below `2 ^ 53`; the source's number is a double, which holds every such value exactly
and rounds larger ones. -/
def parseDigits (ds : List Char) : Nat :=
  ds.foldl (fun acc c => 10 * acc + (c.toNat - 48)) 0

/-- The match of `/^(\d+)([smhd])$/`: one or more ASCII digits followed by one unit
letter and nothing else; the two groups. -/
def matchDuration (s : String) : Option (List Char × Char) :=
  match s.toList.reverse with
  | [] => none
  | unit :: rest =>
    let digits := rest.reverse
    if (unit = 's' ∨ unit = 'm' ∨ unit = 'h' ∨ unit = 'd')
        ∧ digits ≠ [] ∧ digits.all (fun c => decide ('0' ≤ c ∧ c ≤ '9')) = true then
      some (digits, unit)
    else none

/-- Function `getAccessTokenExpiresInSeconds`: a number as it is; a text through the pattern and
the unit; `3600` for a text the pattern does not match. The products are those of the
source as long as they are below `2 ^ 53`, where its doubles are exact. -/
def getAccessTokenExpiresInSeconds (env : Env) : Nat :=
  match env.jwt.accessExpiresIn with
  | .num n => n
  | .str s =>
    match matchDuration s with
    | none => 3600
    | some (digits, unit) =>
      let value := parseDigits digits
      if unit = 's' then value
      else if unit = 'm' then value * 60
      else if unit = 'h' then value * 60 * 60
      else if unit = 'd' then value * 24 * 60 * 60
      else 3600

/-! ## `src/services/authService.js` -/

/-- The argument of `register`. -/
structure RegisterData where
  email : String
  password : String
  name : String
  deriving DecidableEq, Repr

/-- The argument of `login`. -/
structure Credentials where
  email : String
  password : String
  deriving DecidableEq, Repr

/-- The object `login` and `refresh` return. -/
structure Tokens where
  accessToken : String
  refreshToken : String
  expiresIn : Nat
  deriving DecidableEq, Repr

/-- Function `register`: `Conflict` when `User.emailExists`, otherwise hash, `User.create` and
`User.toSafeUser`. `salt` is the salt `bcrypt` draws and `id` the `uuidv4()` of
`User.create`. Reading `user.id` for the log throws a `TypeError` on `null`. -/
def register (env : Env) (now : Nat) (salt id : String) (db : Db) (userData : RegisterData) :
    Except JsError (Option JsObject) × Db :=
  if User.emailExists db userData.email then
    (.error (conflict "このメールアドレスは既に登録されています"), db)
  else
    let hashedPassword := hashPassword env salt userData.password
    match User.create db now id
        { email := userData.email, password := hashedPassword, name := userData.name,
          role := none } with
    | (.error e, db1) => (.error e, db1)
    | (.ok none, db1) => (.error (typeError "Cannot read properties of null"), db1)
    | (.ok (some user), db1) => (.ok (User.toSafeUser (some user)), db1)

/-- Function `login`: `Unauthorized` when no account has the email or the password does not verify,
otherwise an access token, a refresh token and the stored record of the latter. `jti` and
`id` are the `uuidv4()` of `generateRefreshToken` and of `RefreshToken.create`. -/
def login (env : Env) (now : Nat) (jti id : String) (db : Db) (credentials : Credentials) :
    Except JsError Tokens × Db :=
  match User.findByEmail db credentials.email with
  | none => (.error (unauthorized "メールアドレスまたはパスワードが正しくありません"), db)
  | some user =>
    if ¬ verifyPassword env credentials.password user.password then
      (.error (unauthorized "メールアドレスまたはパスワードが正しくありません"), db)
    else
      match generateAccessToken env now
          { userId := user.id, email := user.email, role := user.role } with
      | .error e => (.error e, db)
      | .ok accessToken =>
        match generateRefreshToken env now jti user.id with
        | .error e => (.error e, db)
        | .ok refreshToken =>
          match RefreshToken.create db now id { userId := user.id, token := refreshToken } with
          | (.error e, db1) => (.error e, db1)
          | (.ok _, db1) =>
            (.ok { accessToken := accessToken, refreshToken := refreshToken,
                   expiresIn := getAccessTokenExpiresInSeconds env }, db1)

/-- Lines 155-186 of `authService.js`, the part of `refresh` that runs once every check has
passed, with `user` the account found: `RefreshToken.revoke` (its result is not bound),
the two tokens, `RefreshToken.create`, the returned object. -/
def refreshRotate (env : Env) (now : Nat) (jti id : String) (db : Db) (user : User)
    (refreshTokenValue : String) : Except JsError Tokens × Db :=
  let db1 := (RefreshToken.revoke db refreshTokenValue).2
  match generateAccessToken env now
      { userId := user.id, email := user.email, role := user.role } with
  | .error e => (.error e, db1)
  | .ok newAccessToken =>
    match generateRefreshToken env now jti user.id with
    | .error e => (.error e, db1)
    | .ok newRefreshToken =>
      match RefreshToken.create db1 now id { userId := user.id, token := newRefreshToken } with
      | (.error e, db2) => (.error e, db2)
      | (.ok _, db2) =>
        (.ok { accessToken := newAccessToken, refreshToken := newRefreshToken,
               expiresIn := getAccessTokenExpiresInSeconds env }, db2)

/-- Function `refresh`: the record of the token must exist and be valid, the token must verify with
`type` equal to `refresh`, the account of the record must exist; then lines 155-186. -/
def refresh (env : Env) (now : Nat) (jti id : String) (db : Db) (refreshTokenValue : String) :
    Except JsError Tokens × Db :=
  match RefreshToken.findByToken db refreshTokenValue with
  | none => (.error (unauthorized "無効なリフレッシュトークンです"), db)
  | some tokenRecord =>
    if ¬ RefreshToken.isValid (some tokenRecord) now then
      (.error (unauthorized "リフレッシュトークンが無効または期限切れです"), db)
    else
      match verifyToken env now refreshTokenValue with
      | none => (.error (unauthorized "無効なリフレッシュトークンです"), db)
      | some decoded =>
        if decoded.lookup "type" ≠ some (.str "refresh") then
          (.error (unauthorized "無効なリフレッシュトークンです"), db)
        else
          match User.findById db tokenRecord.userId with
          | none => (.error (unauthorized "ユーザーが見つかりません"), db)
          | some user => refreshRotate env now jti id db user refreshTokenValue

/-- The object `logout` returns. -/
structure LogoutResult where
  message : String
  deriving DecidableEq, Repr

/-- Function `logout`: `RefreshToken.revoke`, whose result and the caller id only go to the log, and
the message. -/
def logout (db : Db) (refreshTokenValue : String) (_userId : String) : LogoutResult × Db :=
  let revoked := RefreshToken.revoke db refreshTokenValue
  ({ message := "ログアウトしました" }, revoked.2)

/-- Function `revokeAllTokens`: `RefreshToken.revokeAllByUserId` and its count. -/
def revokeAllTokens (db : Db) (userId : String) : Nat × Db :=
  RefreshToken.revokeAllByUserId db userId

/-! ## A small concrete world -/

/-- The parts of a text between dots. -/
def splitDot (cs : List Char) : List String :=
  (cs.foldr (fun c acc =>
      if c = '.' then [] :: acc
      else match acc with
        | [] => [[c]]
        | part :: parts => (c :: part) :: parts) [[]]).map String.mk

/-- A toy world: a hash is the salt, a dollar sign and the password; a token is the values
of its claims joined by dots, and a token of three parts with `refresh` in the middle
verifies as a refresh token. -/
def demoEnv : Env where
  jwt := { secret := "k", accessExpiresIn := .str "1h", refreshExpiresIn := .str "7d" }
  bcryptHash := fun password _ salt => salt ++ "$" ++ password
  bcryptCompare := fun password hash => List.isSuffixOf ('$' :: password.toList) hash.toList
  jwtSign := fun payload _ _ _ =>
    .ok (String.intercalate "." (payload.map (fun kv =>
      match kv.2 with
      | .str s => s
      | _ => "")))
  jwtVerify := fun token _ _ =>
    match splitDot token.toList with
    | [u, ty, j] =>
      if ty = "refresh" then .ok [("userId", .str u), ("type", .str "refresh"), ("jti", .str j)]
      else .error (.other "JsonWebTokenError" "invalid token" none)
    | _ => .error (.other "JsonWebTokenError" "invalid token" none)
  jwtDecode := fun _ => none

/-- One account, Ann, and one active refresh token of hers. -/
def demoDb : Db where
  users := [{ id := "u1", email := "a@x.com", password := "s1$Password123", name := "Ann",
              role := "user", createdAt := 0 }]
  refresh_tokens := [{ id := "r1", userId := "u1", token := "u1.refresh.j1",
                       expiresAt := 604800000, revoked := false, createdAt := 0 }]
  foreign_keys := true

/-- The state after the token of `demoDb` has been redeemed at time 1000. -/
def demoDb1 : Db where
  users := demoDb.users
  refresh_tokens :=
    [{ id := "r1", userId := "u1", token := "u1.refresh.j1",
       expiresAt := 604800000, revoked := true, createdAt := 0 },
     { id := "r2", userId := "u1", token := "u1.refresh.j2",
       expiresAt := 604801000, revoked := false, createdAt := 1 }]
  foreign_keys := true

/-- The tokens that redemption returns. -/
def demoTokens : Tokens :=
  { accessToken := "u1.a@x.com.user.access", refreshToken := "u1.refresh.j2", expiresIn := 3600 }

/-- Ann's account row. -/
def demoAnn : User :=
  { id := "u1", email := "a@x.com", password := "s1$Password123", name := "Ann",
    role := "user", createdAt := 0 }

/-- The state `demoDb` with the table of refresh tokens emptied, as after a purge. -/
def demoDbPurged : Db where
  users := demoDb.users
  refresh_tokens := []
  foreign_keys := true

/-- A database without any row. -/
def emptyDb : Db where
  users := []
  refresh_tokens := []
  foreign_keys := true

/-- The state after `a@x.com` has registered in `emptyDb` at time 5000. -/
def demoDbLower : Db where
  users := [{ id := "u1", email := "a@x.com", password := "s1$Password123", name := "Ann",
              role := "user", createdAt := 5 }]
  refresh_tokens := []
  foreign_keys := true

/-- The state after `A@x.com` has registered in `demoDbLower` at time 9000. -/
def demoDbBoth : Db where
  users := [{ id := "u1", email := "a@x.com", password := "s1$Password123", name := "Ann",
              role := "user", createdAt := 5 },
            { id := "u2", email := "A@x.com", password := "s2$Secret4567", name := "Bob",
              role := "user", createdAt := 9 }]
  refresh_tokens := []
  foreign_keys := true

/-- The state after `b@x.com` has registered in `demoDb` at time 5000. -/
def demoDbBob : Db where
  users := [{ id := "u1", email := "a@x.com", password := "s1$Password123", name := "Ann",
              role := "user", createdAt := 0 },
            { id := "u2", email := "b@x.com", password := "s2$Secret4567", name := "Bob",
              role := "user", createdAt := 5 }]
  refresh_tokens := demoDb.refresh_tokens
  foreign_keys := true

/-! ## `src/models/RefreshToken.js`, the deletions -/

/-- Function `RefreshToken.deleteExpired`:
`DELETE FROM refresh_tokens WHERE expires_at < ? OR revoked = 1` with the ISO-8601 text of
`new Date()`, and `result.changes`. Two such texts compare as their instants do, so the
comparison is the one of the milliseconds. -/
def RefreshToken.deleteExpired (db : Db) (now : Nat) : Nat × Db :=
  let changes :=
    (db.refresh_tokens.filter (fun r => decide (r.expiresAt < now) || r.revoked)).length
  let db1 : Db :=
    { db with refresh_tokens :=
        db.refresh_tokens.filter (fun r => !(decide (r.expiresAt < now) || r.revoked)) }
  (changes, db1)

/-- Function `RefreshToken.remove`: `DELETE FROM refresh_tokens WHERE id = ?` and
`result.changes > 0`. -/
def RefreshToken.remove (db : Db) (id : String) : Bool × Db :=
  let changes := (db.refresh_tokens.filter (fun r => r.id == id)).length
  let db1 : Db := { db with refresh_tokens := db.refresh_tokens.filter (fun r => !(r.id == id)) }
  (decide (changes > 0), db1)

/-! ## The operations that write to `refresh_tokens` -/

/-- A call of one of the five writing functions of `RefreshToken.js` or of one of the five
functions of `authService.js`, with its arguments and the values it draws. -/
inductive Operation where
  | storeCreate (now : Nat) (id : String) (tokenData : TokenData)
  | storeRevoke (token : String)
  | storeRevokeAllByUserId (userId : String)
  | storeDeleteExpired (now : Nat)
  | storeRemove (id : String)
  | register (now : Nat) (salt id : String) (userData : RegisterData)
  | login (now : Nat) (jti id : String) (credentials : Credentials)
  | refresh (now : Nat) (jti id : String) (refreshTokenValue : String)
  | logout (refreshTokenValue userId : String)
  | revokeAllTokens (userId : String)

/-- The state a call leaves behind, whether it returns or throws. -/
def Operation.run (env : Env) (op : Operation) (db : Db) : Db :=
  match op with
  | .storeCreate now id tokenData => (RefreshToken.create db now id tokenData).2
  | .storeRevoke token => (RefreshToken.revoke db token).2
  | .storeRevokeAllByUserId userId => (RefreshToken.revokeAllByUserId db userId).2
  | .storeDeleteExpired now => (RefreshToken.deleteExpired db now).2
  | .storeRemove id => (RefreshToken.remove db id).2
  | .register now salt id userData => (AuthApi.register env now salt id db userData).2
  | .login now jti id credentials => (AuthApi.login env now jti id db credentials).2
  | .refresh now jti id refreshTokenValue =>
    (AuthApi.refresh env now jti id db refreshTokenValue).2
  | .logout refreshTokenValue userId => (AuthApi.logout db refreshTokenValue userId).2
  | .revokeAllTokens userId => (AuthApi.revokeAllTokens db userId).2

/-! ## `src/middlewares/auth.js` -/

/-- The parts of a text between the occurrences of a one-character separator, as
`String.prototype.split` returns them. -/
def splitChar (sep : Char) (cs : List Char) : List (List Char) :=
  cs.foldr (fun c acc =>
      if c = sep then [] :: acc
      else match acc with
        | [] => [[c]]
        | part :: parts => (c :: part) :: parts) [[]]

/-- The object `authenticate` stores in `req.user`. -/
structure Identity where
  id : String
  email : String
  name : String
  role : String
  deriving DecidableEq, Repr

/-- The properties of `req.user`, in order. -/
def Identity.toObject (i : Identity) : JsObject :=
  [("id", .str i.id), ("email", .str i.email), ("name", .str i.name), ("role", .str i.role)]

/-- The call `User.findById(decoded.userId)` on the claims of a token: a text is looked
up as such; a missing claim is bound as `NULL`, which equals no id; a number is bound as a
`REAL` and compared with the `TEXT` column through its text (for a whole number below
10^15, its digits and `.0`); `better-sqlite3` refuses to bind a boolean. -/
def User.findByClaimedId (db : Db) (decoded : JsObject) : Except JsError (Option User) :=
  match decoded.lookup "userId" with
  | some (.str userId) => .ok (User.findById db userId)
  | some (.num n) => .ok (User.findById db (toString n ++ ".0"))
  | some (.bool _) =>
    .error (typeError "SQLite3 can only bind numbers, strings, bigints, buffers, and null")
  | none => .ok none

/-- Function `authenticate`: `authorization` is `req.headers.authorization`. The result
`ok identity` stands for `req.user = identity; next()`, and `error e` for `next(e)` with
`req.user` left unset. -/
def authenticate (env : Env) (now : Nat) (db : Db) (authorization : Option String) :
    Except JsError Identity :=
  match authorization with
  | none => .error (unauthorized "認証トークンが必要です")
  | some authHeader =>
    if authHeader = "" then .error (unauthorized "認証トークンが必要です")
    else
      match splitChar ' ' authHeader.toList with
      | [scheme, token] =>
        if String.mk scheme ≠ "Bearer" then .error (unauthorized "トークン形式が不正です")
        else
          match verifyToken env now (String.mk token) with
          | none => .error (unauthorized "無効なトークンです")
          | some decoded =>
            if decoded.lookup "type" ≠ some (.str "access") then
              .error (unauthorized "アクセストークンが必要です")
            else
              match User.findByClaimedId db decoded with
              | .error e => .error e
              | .ok none => .error (unauthorized "ユーザーが見つかりません")
              | .ok (some user) =>
                .ok { id := user.id, email := user.email, name := user.name,
                      role := user.role }
      | _ => .error (unauthorized "トークン形式が不正です")

/-- The state `demoDb` with a second record of Ann's, revoked and past its expiry at the
time 604800000 at which her first record expires. -/
def demoDbSweep : Db where
  users := demoDb.users
  refresh_tokens :=
    [{ id := "r1", userId := "u1", token := "u1.refresh.j1",
       expiresAt := 604800000, revoked := false, createdAt := 0 },
     { id := "r0", userId := "u1", token := "u1.refresh.j0",
       expiresAt := 604700000, revoked := true, createdAt := 0 }]
  foreign_keys := true

/-- Function `optionalAuthenticate`: the steps of `authenticate`, with `next()` in place of
every throw, and a `catch` that calls `next()` too. The result `ok (some identity)` stands
for `req.user = identity; next()`, `ok none` for `next()` with `req.user` left unset, and
`error e` for `next(e)`. -/
def optionalAuthenticate (env : Env) (now : Nat) (db : Db) (authorization : Option String) :
    Except JsError (Option Identity) :=
  match authorization with
  | none => .ok none
  | some authHeader =>
    if authHeader = "" then .ok none
    else
      match splitChar ' ' authHeader.toList with
      | [scheme, token] =>
        if String.mk scheme ≠ "Bearer" then .ok none
        else
          match verifyToken env now (String.mk token) with
          | none => .ok none
          | some decoded =>
            if decoded.lookup "type" = some (.str "access") then
              match User.findByClaimedId db decoded with
              | .error _ => .ok none
              | .ok none => .ok none
              | .ok (some user) =>
                .ok (some { id := user.id, email := user.email, name := user.name,
                            role := user.role })
            else .ok none
      | _ => .ok none

/-- Function `ownerOrAdmin(getOwnerId)`, applied to a request: `user` is `req.user`, and
`getOwnerId` is what `await getOwnerId(req)` does on this request, the value it resolves
to (`none` for `null` or `undefined`) or the error it throws. The result `ok ()` stands for
`next()` and `error e` for `next(e)`. -/
def ownerOrAdmin (getOwnerId : Except JsError (Option JsVal)) (user : Option Identity) :
    Except JsError Unit :=
  match user with
  | none => .error (unauthorized "認証が必要です")
  | some u =>
    if u.role = "admin" then .ok ()
    else
      match getOwnerId with
      | .error e => .error e
      | .ok ownerId =>
        if ownerId ≠ some (.str u.id) then
          .error (forbidden "この操作を行う権限がありません")
        else .ok ()

/-! ## `src/middlewares/errorHandler.js`, the handler -/

/-- What `errorHandler` sends: `res.status(status).json(body)`, the body with its `error`
and `message` and, when set, its `details`. -/
structure ErrorResponse where
  status : Nat
  error : String
  message : String
  details : Option JsObject
  deriving DecidableEq, Repr

/-- Function `errorHandler`: an `ApiError` gives its own status and message under the name
`ApiError`; then the two names of `jsonwebtoken`, the code of the `UNIQUE` violation, and
the generic answer. -/
def errorHandler (err : JsError) : ErrorResponse :=
  match err with
  | .apiError statusCode message details =>
    { status := statusCode, error := "ApiError", message := message, details := details }
  | .other name _ code =>
    if name = "JsonWebTokenError" then
      { status := 401, error := "Unauthorized", message := "無効なトークンです", details := none }
    else if name = "TokenExpiredError" then
      { status := 401, error := "Unauthorized", message := "トークンの有効期限が切れています",
        details := none }
    else if code = some "SQLITE_CONSTRAINT_UNIQUE" then
      { status := 409, error := "Conflict", message := "データが既に存在します", details := none }
    else
      { status := 500, error := "Internal Server Error",
        message := "サーバー内部エラーが発生しました", details := none }

/-! ## Predicates of the claims -/

/-- The relation between the table before and after a step under which no `revoked` flag
is cleared: every row after the step is a row from before, or a row from before with
`revoked` set, or a row under an id that no row carried before. -/
def RevokedKept (before after : List RefreshTokenRecord) : Prop :=
  ∀ r1 ∈ after, r1 ∈ before ∨ (∃ r ∈ before, r1 = { r with revoked := true })
    ∨ (∀ r ∈ before, r.id ≠ r1.id)

/-- The first record of `demoDb1`, revoked by the redemption. -/
def demoRevoked : RefreshTokenRecord :=
  { id := "r1", userId := "u1", token := "u1.refresh.j1", expiresAt := 604800000,
    revoked := true, createdAt := 0 }

/-- The world `demoEnv` with a verification that rejects every token. -/
def demoEnvRejecting : Env where
  jwt := demoEnv.jwt
  bcryptHash := demoEnv.bcryptHash
  bcryptCompare := demoEnv.bcryptCompare
  jwtSign := demoEnv.jwtSign
  jwtVerify := fun _ _ _ => .error (.other "JsonWebTokenError" "invalid signature" none)
  jwtDecode := demoEnv.jwtDecode

/-- The state after Ann has logged in at time 2000 in `demoDb`. -/
def demoDbLogin : Db where
  users := demoDb.users
  refresh_tokens :=
    [{ id := "r1", userId := "u1", token := "u1.refresh.j1",
       expiresAt := 604800000, revoked := false, createdAt := 0 },
     { id := "r3", userId := "u1", token := "u1.refresh.j3",
       expiresAt := 604802000, revoked := false, createdAt := 2 }]
  foreign_keys := true

/-- The tokens that login returns. -/
def demoLoginTokens : Tokens :=
  { accessToken := "u1.a@x.com.user.access", refreshToken := "u1.refresh.j3", expiresIn := 3600 }

/-- Ann and Bob, with an active and a revoked record of Ann's and an active record of
Bob's. -/
def demoDbTwo : Db where
  users := demoDbBob.users
  refresh_tokens :=
    [{ id := "r1", userId := "u1", token := "u1.refresh.j1",
       expiresAt := 604800000, revoked := false, createdAt := 0 },
     { id := "r0", userId := "u1", token := "u1.refresh.j0",
       expiresAt := 604700000, revoked := true, createdAt := 0 },
     { id := "r5", userId := "u2", token := "u2.refresh.j5",
       expiresAt := 604900000, revoked := false, createdAt := 100 }]
  foreign_keys := true

/-- The state `demoDbTwo` after all of Ann's tokens have been revoked. -/
def demoDbTwoRevoked : Db where
  users := demoDbBob.users
  refresh_tokens :=
    [{ id := "r1", userId := "u1", token := "u1.refresh.j1",
       expiresAt := 604800000, revoked := true, createdAt := 0 },
     { id := "r0", userId := "u1", token := "u1.refresh.j0",
       expiresAt := 604700000, revoked := true, createdAt := 0 },
     { id := "r5", userId := "u2", token := "u2.refresh.j5",
       expiresAt := 604900000, revoked := false, createdAt := 100 }]
  foreign_keys := true

/-- The world `demoEnv` with a verification that also accepts the access tokens of
`demoEnv`: five parts between dots, the id, the two halves of the email, the role and
`access`. -/
def demoEnvAccess : Env where
  jwt := demoEnv.jwt
  bcryptHash := demoEnv.bcryptHash
  bcryptCompare := demoEnv.bcryptCompare
  jwtSign := demoEnv.jwtSign
  jwtVerify := fun token _ _ =>
    match splitDot token.toList with
    | [u, ty, j] =>
      if ty = "refresh" then .ok [("userId", .str u), ("type", .str "refresh"), ("jti", .str j)]
      else .error (.other "JsonWebTokenError" "invalid token" none)
    | [u, e1, e2, role, ty] =>
      if ty = "access" then
        .ok [("userId", .str u), ("email", .str (e1 ++ "." ++ e2)), ("role", .str role),
             ("type", .str "access")]
      else .error (.other "JsonWebTokenError" "invalid token" none)
    | _ => .error (.other "JsonWebTokenError" "invalid token" none)
  jwtDecode := demoEnv.jwtDecode

/-- The world `demoEnv` with another value of `config.jwt.accessExpiresIn`. -/
def demoEnvExpires (accessExpiresIn : ExpiresIn) : Env where
  jwt := { secret := "k", accessExpiresIn := accessExpiresIn, refreshExpiresIn := .str "7d" }
  bcryptHash := demoEnv.bcryptHash
  bcryptCompare := demoEnv.bcryptCompare
  jwtSign := demoEnv.jwtSign
  jwtVerify := demoEnv.jwtVerify
  jwtDecode := demoEnv.jwtDecode

/-! ## The contract of `jsonwebtoken` -/

/-- The contract of `jwt.sign`, `jwt.decode` and `jwt.verify` on issued tokens: a token that
`sign` returns decodes to the payload signed, followed by `iat`, the second of the
signature, and `exp`, a later second; and `verify` with the secret of the signature returns
the same claims as long as the second of the verification is before `exp`. -/
def JwtReturnsIssued (env : Env) : Prop :=
  ∀ payload secret expiresIn now token,
    env.jwtSign payload secret expiresIn now = .ok token →
    ∃ exp, now / 1000 ≤ exp
      ∧ env.jwtDecode token =
          some (payload ++ [("iat", .num (now / 1000)), ("exp", .num exp)])
      ∧ ∀ now2, now2 / 1000 < exp →
          env.jwtVerify token secret now2 =
            .ok (payload ++ [("iat", .num (now / 1000)), ("exp", .num exp)])

/-- The contract of `jwt.verify` on malformed input: it throws on every text that is not
three parts separated by two dots. -/
def JwtRejectsMalformed (env : Env) : Prop :=
  ∀ token secret now, (splitChar '.' token.toList).length ≠ 3 →
    ∃ e, env.jwtVerify token secret now = .error e

/-- The second text is the first one with one character replaced by another one. -/
def OneCharChanged (a b : String) : Prop :=
  ∃ before c d after, c ≠ d ∧ a.toList = before ++ c :: after ∧ b.toList = before ++ d :: after

/-- The contract of `jwt.verify` on tampered input (collisions of the HMAC aside): it throws
on every text that is an issued token with one character changed. -/
def JwtRejectsTampered (env : Env) : Prop :=
  ∀ payload secret expiresIn now token tampered,
    env.jwtSign payload secret expiresIn now = .ok token →
    OneCharChanged token tampered →
    ∀ now2, ∃ e, env.jwtVerify tampered secret now2 = .error e

/-! ## A world whose codec keeps the contract -/

/-- A text without dot for a text: a dot is written `~d`, a tilde `~~`, and `~;` ends the
text. -/
def escText : List Char → List Char
  | [] => ['~', ';']
  | c :: cs =>
    if c = '.' then '~' :: 'd' :: escText cs
    else if c = '~' then '~' :: '~' :: escText cs
    else c :: escText cs

/-- The text that `escText` wrote at the head of the input, and the rest of the input. -/
def decText : List Char → Option (List Char × List Char)
  | [] => none
  | c :: cs =>
    if c = '~' then
      match cs with
      | [] => none
      | e :: cs2 =>
        if e = ';' then some ([], cs2)
        else if e = '~' then (decText cs2).map (fun p => ('~' :: p.1, p.2))
        else if e = 'd' then (decText cs2).map (fun p => ('.' :: p.1, p.2))
        else none
    else if c = '.' then none
    else (decText cs).map (fun p => (c :: p.1, p.2))

/-- The binary digits of a number, the lowest first; the first argument bounds their
count. -/
def natBits : Nat → Nat → List Char
  | 0, _ => []
  | fuel + 1, n =>
    if n = 0 then [] else (if n % 2 = 1 then '1' else '0') :: natBits fuel (n / 2)

/-- The number of binary digits, the lowest first. -/
def bitsNat : List Char → Nat
  | [] => 0
  | c :: cs => (if c = '1' then 1 else 0) + 2 * bitsNat cs

/-- A value: a tag, then a text, a number in binary, or `t` or `f`. -/
def encVal : JsVal → List Char
  | .str s => 's' :: escText s.toList
  | .num n => 'n' :: escText (natBits n n)
  | .bool b => ['b', if b then 't' else 'f']

/-- The value that `encVal` wrote at the head of the input, and the rest of the input. -/
def decVal : List Char → Option (JsVal × List Char)
  | [] => none
  | t :: cs =>
    if t = 's' then (decText cs).map (fun p => (.str (String.mk p.1), p.2))
    else if t = 'n' then (decText cs).map (fun p => (.num (bitsNat p.1), p.2))
    else if t = 'b' then
      match cs with
      | [] => none
      | v :: cs2 =>
        if v = 't' then some (.bool true, cs2)
        else if v = 'f' then some (.bool false, cs2)
        else none
    else none

/-- An object: for each property `k`, its name and its value; then `!`. -/
def encObject : JsObject → List Char
  | [] => ['!']
  | (k, v) :: rest => 'k' :: (escText k.toList ++ (encVal v ++ encObject rest))

/-- The object that `encObject` wrote, the input being read to its end; the first argument
bounds the number of properties. -/
def decObject : Nat → List Char → Option JsObject
  | 0, _ => none
  | fuel + 1, cs =>
    match cs with
    | [] => none
    | t :: cs1 =>
      if t = '!' then (if cs1 = [] then some [] else none)
      else if t = 'k' then
        match decText cs1 with
        | none => none
        | some (k, cs2) =>
          match decVal cs2 with
          | none => none
          | some (v, cs3) =>
            (decObject fuel cs3).map (fun rest => (String.mk k, v) :: rest)
      else none

/-- The seconds of an `expiresIn`: a number as it is, a text of digits and a unit as
`getAccessTokenExpiresInSeconds` reads it. -/
def codecSpan (expiresIn : ExpiresIn) : Option Nat :=
  match expiresIn with
  | .num n => some n
  | .str s =>
    match matchDuration s with
    | none => none
    | some (digits, unit) =>
      some (parseDigits digits *
        (if unit = 's' then 1 else if unit = 'm' then 60 else if unit = 'h' then 3600
         else 86400))

/-- The token of the claims: a header, the claims, and as signature the secret and the
claims again. -/
def codecToken (secret : String) (claims : JsObject) : List Char :=
  'J' :: '.' :: (encObject claims ++ '.' :: (escText secret.toList ++ encObject claims))

/-- The toy `jwt.sign`: it refuses a payload with `iat` or `exp` and an `expiresIn` it
cannot read, and signs the payload with `iat` and `exp` added. -/
def codecSign (payload : JsObject) (secret : String) (expiresIn : ExpiresIn) (now : Nat) :
    Except JsError String :=
  if payload.lookup "iat" ≠ none ∨ payload.lookup "exp" ≠ none then
    .error (.other "Error" "the payload already has an iat or exp property" none)
  else
    match codecSpan expiresIn with
    | none => .error (.other "Error" "invalid expiresIn option" none)
    | some span =>
      .ok (String.mk (codecToken secret
        (payload ++ [("iat", .num (now / 1000)), ("exp", .num (now / 1000 + span))])))

/-- The claims part and the signature part of a token of three parts with the header. -/
def codecParse (token : String) : Option (List Char × List Char) :=
  match splitChar '.' token.toList with
  | [header, body, signature] => if header = ['J'] then some (body, signature) else none
  | _ => none

/-- The toy `jwt.decode`. -/
def codecDecode (token : String) : Option JsObject :=
  match codecParse token with
  | none => none
  | some (body, _) => decObject body.length body

/-- The toy `jwt.verify`: the three parts, the signature, the claims, the expiry. -/
def codecVerify (token secret : String) (now : Nat) : Except JsError JsObject :=
  match codecParse token with
  | none => .error (.other "JsonWebTokenError" "jwt malformed" none)
  | some (body, signature) =>
    if signature ≠ escText secret.toList ++ body then
      .error (.other "JsonWebTokenError" "invalid signature" none)
    else
      match decObject body.length body with
      | none => .error (.other "JsonWebTokenError" "invalid token" none)
      | some claims =>
        match claims.lookup "exp" with
        | some (.num exp) =>
          if now / 1000 < exp then .ok claims
          else .error (.other "TokenExpiredError" "jwt expired" none)
        | _ => .ok claims

/-- The world of the toy codec, with the hash of `demoEnv`. -/
def codecEnv : Env where
  jwt := { secret := "k", accessExpiresIn := .str "1h", refreshExpiresIn := .str "7d" }
  bcryptHash := demoEnv.bcryptHash
  bcryptCompare := demoEnv.bcryptCompare
  jwtSign := codecSign
  jwtVerify := codecVerify
  jwtDecode := codecDecode

/-- Ann as the argument of `generateAccessToken`. -/
def codecAnn : AccessPayload := { userId := "u1", email := "ann@example.com", role := "user" }

/-- The access token of Ann that the toy codec issues at 5000 ms: it expires at second
3605. -/
def codecAccessToken : String :=
  String.mk (codecToken "k"
    [("userId", .str "u1"), ("email", .str "ann@example.com"), ("role", .str "user"),
     ("type", .str "access"), ("iat", .num 5), ("exp", .num 3605)])

/-- The refresh token of Ann with `jti` `j1` that the toy codec issues at 5000 ms: it
expires at second 604805. -/
def codecRefreshToken (jti : String) : String :=
  String.mk (codecToken "k"
    [("userId", .str "u1"), ("type", .str "refresh"), ("jti", .str jti),
     ("iat", .num 5), ("exp", .num 604805)])

/-- The token `codecAccessToken` with its first character replaced by `X`. -/
def codecTampered : String :=
  String.mk ('X' :: codecAccessToken.toList.tail)

/-- A token that the toy codec signs at 5000 ms for claims of `type` `access` whose
`userId` is the boolean `true`. -/
def codecBooleanToken : String :=
  String.mk (codecToken "k"
    [("userId", .bool true), ("type", .str "access"), ("iat", .num 5), ("exp", .num 3605)])

end AuthApi

namespace AuthApi

/-! ## Lemmas on the tables -/

/-- After the update, the first row with the token is the former first row, revoked. -/
theorem find_token_after_revoke (t : String) (l : List RefreshTokenRecord)
    (r : RefreshTokenRecord) (h : l.find? (fun r => r.token == t) = some r) :
    (l.map (fun r => if r.token == t then { r with revoked := true } else r)).find?
      (fun r => r.token == t) = some { r with revoked := true } := by
  induction l with
  | nil => simp at h
  | cons a l ih =>
    by_cases ha : (a.token == t) = true
    · simp only [List.find?_cons, ha] at h
      simp only [Option.some.injEq] at h
      subst h
      simp only [List.map_cons, ha, if_true, List.find?_cons]
    · simp only [List.find?_cons, ha] at h
      have ha1 : (a.token == t) = false := Bool.eq_false_iff.mpr ha
      simp only [List.map_cons, ha1, Bool.false_eq_true, if_false, List.find?_cons]
      exact ih h

/-- The update brings no row under a token that no row carried. -/
theorem find_token_after_revoke_none (t : String) (l : List RefreshTokenRecord)
    (h : l.find? (fun r => r.token == t) = none) :
    (l.map (fun r => if r.token == t then { r with revoked := true } else r)).find?
      (fun r => r.token == t) = none := by
  induction l with
  | nil => rfl
  | cons a l ih =>
    by_cases ha : (a.token == t) = true
    · simp [List.find?_cons, ha] at h
    · simp only [List.find?_cons, ha] at h
      have ha1 : (a.token == t) = false := Bool.eq_false_iff.mpr ha
      simp only [List.map_cons, ha1, Bool.false_eq_true, if_false, List.find?_cons]
      exact ih h

/-- What a successful `RefreshToken.create` did: one row appended, nothing else touched, and
neither the token nor the id was carried by a row before. -/
theorem refreshToken_create_ok (db db1 : Db) (now : Nat) (id : String) (td : TokenData)
    (res : Option RefreshTokenRecord)
    (h : RefreshToken.create db now id td = (.ok res, db1)) :
    db1 = { db with refresh_tokens := db.refresh_tokens ++
              [{ id := id, userId := td.userId, token := td.token,
                 expiresAt := now + REFRESH_TOKEN_EXPIRY_MS, revoked := false,
                 createdAt := currentTimestamp now }] }
    ∧ db.refresh_tokens.any (fun r => r.token == td.token) = false
    ∧ db.refresh_tokens.any (fun r => r.id == id) = false := by
  unfold RefreshToken.create at h
  split_ifs at h with h1 h2 h3
  · simp at h
  · simp at h
  · simp at h
  · simp only [Prod.mk.injEq, Except.ok.injEq] at h
    exact ⟨h.2.symm, Bool.eq_false_iff.mpr h2, Bool.eq_false_iff.mpr h1⟩

/-- A failed `RefreshToken.create` leaves the database as it was. -/
theorem refreshToken_create_error (db db1 : Db) (now : Nat) (id : String) (td : TokenData)
    (e : JsError) (h : RefreshToken.create db now id td = (.error e, db1)) : db1 = db := by
  unfold RefreshToken.create at h
  split_ifs at h
  · simp only [Prod.mk.injEq] at h; exact h.2.symm
  · simp only [Prod.mk.injEq] at h; exact h.2.symm
  · simp only [Prod.mk.injEq] at h; exact h.2.symm
  · simp at h

/-- What a successful run of lines 155-186 did: the revoke, then a successful
`RefreshToken.create` of the returned refresh token. -/
theorem refreshRotate_ok (env : Env) (now : Nat) (jti id : String) (db db2 : Db) (user : User)
    (t : String) (tokens : Tokens)
    (h : refreshRotate env now jti id db user t = (.ok tokens, db2)) :
    ∃ res, RefreshToken.create (RefreshToken.revoke db t).2 now id
        { userId := user.id, token := tokens.refreshToken } = (.ok res, db2) := by
  unfold refreshRotate at h
  simp only at h
  split at h
  · simp at h
  · split at h
    · simp at h
    · split at h
      · simp at h
      · next res db2x hc =>
        simp only [Prod.mk.injEq, Except.ok.injEq] at h
        obtain ⟨h1, h2⟩ := h
        subst h1 h2
        exact ⟨res, hc⟩

/-- What a successful `refresh` went through: the record was found and valid, the token
verified with `type` equal to `refresh`, the account was found, and lines 155-186 ran to
their end. -/
theorem refresh_ok (env : Env) (now : Nat) (jti id : String) (db db1 : Db) (t : String)
    (tokens : Tokens) (h : refresh env now jti id db t = (.ok tokens, db1)) :
    ∃ tokenRecord decoded user,
      RefreshToken.findByToken db t = some tokenRecord
      ∧ RefreshToken.isValid (some tokenRecord) now = true
      ∧ verifyToken env now t = some decoded
      ∧ decoded.lookup "type" = some (.str "refresh")
      ∧ User.findById db tokenRecord.userId = some user
      ∧ refreshRotate env now jti id db user t = (.ok tokens, db1) := by
  unfold refresh at h
  cases hrec : RefreshToken.findByToken db t with
  | none => simp [hrec, unauthorized] at h
  | some tokenRecord =>
    simp only [hrec] at h
    by_cases hvalid : RefreshToken.isValid (some tokenRecord) now = true
    · simp only [hvalid, not_true_eq_false, if_false] at h
      cases hdec : verifyToken env now t with
      | none => simp [hdec, unauthorized] at h
      | some decoded =>
        simp only [hdec] at h
        by_cases htype : decoded.lookup "type" = some (.str "refresh")
        · simp only [htype, ne_eq, not_true_eq_false, if_false] at h
          cases huser : User.findById db tokenRecord.userId with
          | none => simp [huser, unauthorized] at h
          | some user =>
            simp only [huser] at h
            exact ⟨tokenRecord, decoded, user, rfl, hvalid, rfl, htype, huser, h⟩
        · simp [htype, unauthorized] at h
    · simp [hvalid, unauthorized] at h

/-- A token whose first record is revoked is refused by `refresh`, which changes nothing. -/
theorem refresh_revoked (env : Env) (now : Nat) (jti id : String) (db : Db) (t : String)
    (r : RefreshTokenRecord) (hrec : RefreshToken.findByToken db t = some r)
    (hrev : r.revoked = true) :
    refresh env now jti id db t =
      (.error (.apiError 401 "リフレッシュトークンが無効または期限切れです" none), db) := by
  unfold refresh
  simp [hrec, RefreshToken.isValid, hrev, unauthorized]

/-- A token without a record is refused by `refresh`, which changes nothing. -/
theorem refresh_unknown (env : Env) (now : Nat) (jti id : String) (db : Db) (t : String)
    (hrec : RefreshToken.findByToken db t = none) :
    refresh env now jti id db t =
      (.error (.apiError 401 "無効なリフレッシュトークンです" none), db) := by
  unfold refresh
  simp [hrec, unauthorized]

/-- After `RefreshToken.revoke`, the record `findByToken` returns for the token, if any, is
revoked. -/
theorem findByToken_after_revoke (db : Db) (t : String) :
    (∃ r, RefreshToken.findByToken db t = some r
        ∧ RefreshToken.findByToken (RefreshToken.revoke db t).2 t = some { r with revoked := true })
    ∨ (RefreshToken.findByToken db t = none
        ∧ RefreshToken.findByToken (RefreshToken.revoke db t).2 t = none) := by
  unfold RefreshToken.findByToken RefreshToken.revoke
  cases hf : db.refresh_tokens.find? (fun r => r.token == t) with
  | none => exact Or.inr ⟨rfl, find_token_after_revoke_none t _ hf⟩
  | some r => exact Or.inl ⟨r, rfl, find_token_after_revoke t _ r hf⟩

/-- After a successful `refresh` of `t`, the record `findByToken` returns for `t` is the one
it returned before, now revoked. -/
theorem findByToken_after_refresh (env : Env) (now : Nat) (jti id : String) (db db1 : Db)
    (t : String) (tokens : Tokens) (h : refresh env now jti id db t = (.ok tokens, db1)) :
    ∃ r, RefreshToken.findByToken db t = some r
      ∧ RefreshToken.findByToken db1 t = some { r with revoked := true } := by
  obtain ⟨r, _, user, hrec, _, _, _, _, hrot⟩ := refresh_ok env now jti id db db1 t tokens h
  obtain ⟨res, hc⟩ := refreshRotate_ok env now jti id db db1 user t tokens hrot
  obtain ⟨hdb, _, _⟩ := refreshToken_create_ok _ _ _ _ _ _ hc
  refine ⟨r, hrec, ?_⟩
  rcases findByToken_after_revoke db t with ⟨r1, h1, h2⟩ | ⟨h1, _⟩
  · rw [hrec] at h1
    simp only [Option.some.injEq] at h1
    subst h1
    unfold RefreshToken.findByToken at h2 ⊢
    rw [hdb]
    simp only [List.find?_append, h2]
    rfl
  · rw [hrec] at h1
    simp at h1

/-- Claim C1. If `refresh(t)` succeeds, a second `refresh(t)` on the resulting state, at any
time and with any fresh values, throws the `ApiError` of status 401 and leaves the state as
it was: no record is created and no token is returned. -/
theorem refresh_twice_unauthorized (env : Env) (now now2 : Nat) (jti id jti2 id2 : String)
    (db db1 : Db) (t : String) (tokens : Tokens)
    (h : refresh env now jti id db t = (.ok tokens, db1)) :
    refresh env now2 jti2 id2 db1 t =
      (.error (.apiError 401 "リフレッシュトークンが無効または期限切れです" none), db1) := by
  obtain ⟨r, _, h2⟩ := findByToken_after_refresh env now jti id db db1 t tokens h
  exact refresh_revoked env now2 jti2 id2 db1 t _ h2 rfl

/-- Witness of C1: Ann's token is redeemed at time 1000; presented again at time 2000 it is
refused. -/
theorem refresh_twice_unauthorized_witness :
    refresh demoEnv 1000 "j2" "r2" demoDb "u1.refresh.j1" = (.ok demoTokens, demoDb1)
    ∧ refresh demoEnv 2000 "j3" "r3" demoDb1 "u1.refresh.j1" =
        (.error (.apiError 401 "リフレッシュトークンが無効または期限切れです" none), demoDb1) :=
  ⟨rfl, refresh_twice_unauthorized demoEnv 1000 2000 "j2" "r2" "j3" "r3" demoDb demoDb1
    "u1.refresh.j1" demoTokens rfl⟩

/-- Claim C2. If `refresh(t)` succeeds, the refresh token it returns is not `t`: the
record of `t` is still in the table when the new token is inserted, and `token` is
`UNIQUE`. -/
theorem refresh_returns_different_token (env : Env) (now : Nat) (jti id : String)
    (db db1 : Db) (t : String) (tokens : Tokens)
    (h : refresh env now jti id db t = (.ok tokens, db1)) :
    tokens.refreshToken ≠ t := by
  obtain ⟨r, _, user, hrec, _, _, _, _, hrot⟩ := refresh_ok env now jti id db db1 t tokens h
  obtain ⟨res, hc⟩ := refreshRotate_ok env now jti id db db1 user t tokens hrot
  obtain ⟨_, huniq, _⟩ := refreshToken_create_ok _ _ _ _ _ _ hc
  rcases findByToken_after_revoke db t with ⟨r1, _, h2⟩ | ⟨h1, _⟩
  · intro heq
    unfold RefreshToken.findByToken at h2
    have hmem := List.mem_of_find?_eq_some h2
    have htok := List.find?_some h2
    rw [List.any_eq_false] at huniq
    exact huniq _ hmem (by simpa [heq] using htok)
  · rw [hrec] at h1
    simp at h1

/-- Witness of C2: redeeming Ann's token returns another token. -/
theorem refresh_returns_different_token_witness :
    refresh demoEnv 1000 "j2" "r2" demoDb "u1.refresh.j1" = (.ok demoTokens, demoDb1)
    ∧ demoTokens.refreshToken ≠ "u1.refresh.j1" :=
  ⟨rfl, refresh_returns_different_token demoEnv 1000 "j2" "r2" demoDb demoDb1
    "u1.refresh.j1" demoTokens rfl⟩

/-- Claim C3. After `logout(t, userId)`, `refresh(t)` throws the `ApiError` of status 401
and changes nothing, whatever the state before, the caller id, the time and the fresh
values. -/
theorem logout_then_refresh_unauthorized (env : Env) (now : Nat) (jti id : String) (db : Db)
    (t userId : String) :
    ∃ message, refresh env now jti id (logout db t userId).2 t =
      (.error (.apiError 401 message none), (logout db t userId).2) := by
  unfold logout
  rcases findByToken_after_revoke db t with ⟨r, _, h2⟩ | ⟨_, h2⟩
  · exact ⟨_, refresh_revoked env now jti id _ t _ h2 rfl⟩
  · exact ⟨_, refresh_unknown env now jti id _ t h2⟩

/-- Claim C4. A `login` whose email matches no account and a `login` whose email matches an
account but whose password does not verify throw the same value: the `ApiError` of status
401 with one and the same message. -/
theorem login_failures_indistinguishable (env : Env) (now1 now2 : Nat)
    (jti1 id1 jti2 id2 : String) (db1 db2 : Db) (c1 c2 : Credentials) (user : User)
    (hnone : User.findByEmail db1 c1.email = none)
    (hsome : User.findByEmail db2 c2.email = some user)
    (hbad : verifyPassword env c2.password user.password = false) :
    (login env now1 jti1 id1 db1 c1).1 =
        .error (.apiError 401 "メールアドレスまたはパスワードが正しくありません" none)
    ∧ (login env now2 jti2 id2 db2 c2).1 = (login env now1 jti1 id1 db1 c1).1 := by
  unfold login
  simp [hnone, hsome, hbad, unauthorized]

/-- Witness of C4: in `demoDb`, `b@x.com` has no account and `Password12` is not Ann's
password. -/
theorem login_failures_indistinguishable_witness :
    User.findByEmail demoDb "b@x.com" = none
    ∧ User.findByEmail demoDb "a@x.com" = some
        { id := "u1", email := "a@x.com", password := "s1$Password123", name := "Ann",
          role := "user", createdAt := 0 }
    ∧ verifyPassword demoEnv "Password12" "s1$Password123" = false
    ∧ (login demoEnv 1000 "j2" "r2" demoDb { email := "b@x.com", password := "Password123" }).1 =
        .error (.apiError 401 "メールアドレスまたはパスワードが正しくありません" none)
    ∧ (login demoEnv 2000 "j3" "r3" demoDb { email := "a@x.com", password := "Password12" }).1 =
        (login demoEnv 1000 "j2" "r2" demoDb { email := "b@x.com", password := "Password123" }).1 :=
  ⟨rfl, rfl, rfl,
    login_failures_indistinguishable demoEnv 1000 2000 "j2" "r2" "j3" "r3" demoDb demoDb
      { email := "b@x.com", password := "Password123" }
      { email := "a@x.com", password := "Password12" } _ rfl rfl rfl⟩

/-- What `RefreshToken.revoke` reports: `true` exactly when some row carries the token,
revoked or not. -/
theorem revoke_reports_row_exists (db : Db) (t : String) :
    (RefreshToken.revoke db t).1 = true ↔ ∃ r ∈ db.refresh_tokens, r.token = t := by
  unfold RefreshToken.revoke
  simp only [gt_iff_lt, decide_eq_true_eq, List.length_pos_iff_exists_mem, List.mem_filter,
    beq_iff_eq]

/-- Claim C5, the code at the failing input: in `demoDb1` the record of `u1.refresh.j1` is
already revoked, and `RefreshToken.revoke` still returns `true` (and changes nothing). -/
theorem revoke_of_revoked_reports_true :
    RefreshToken.findByToken demoDb1 "u1.refresh.j1" = some
      { id := "r1", userId := "u1", token := "u1.refresh.j1", expiresAt := 604800000,
        revoked := true, createdAt := 0 }
    ∧ RefreshToken.revoke demoDb1 "u1.refresh.j1" = (true, demoDb1)
    ∧ (RefreshToken.revoke demoDb "u1.refresh.j1").1 = true
    ∧ (RefreshToken.revoke (RefreshToken.revoke demoDb "u1.refresh.j1").2 "u1.refresh.j1").1
        = true :=
  ⟨rfl, rfl, rfl, rfl⟩

/-- Claim C6. If the store's revoke of the presented token reports no change on the state
`refresh` is called in, which is the state its revoke would run in, since nothing is
written before it, then `refresh` throws the `ApiError` of status 401 and leaves the state
as it was: no record is created and no tokens are returned. -/
theorem refresh_fails_when_revoke_reports_false (env : Env) (now : Nat) (jti id : String)
    (db : Db) (t : String) (h : (RefreshToken.revoke db t).1 = false) :
    refresh env now jti id db t =
      (.error (.apiError 401 "無効なリフレッシュトークンです" none), db) := by
  have hnone : RefreshToken.findByToken db t = none := by
    cases hrec : RefreshToken.findByToken db t with
    | none => rfl
    | some r =>
      exfalso
      have hrow : (RefreshToken.revoke db t).1 = true := by
        rw [revoke_reports_row_exists]
        unfold RefreshToken.findByToken at hrec
        exact ⟨r, List.mem_of_find?_eq_some hrec, by simpa using List.find?_some hrec⟩
      rw [h] at hrow
      exact absurd hrow (by decide)
  unfold refresh
  rw [hnone]
  rfl

/-- Witness of C6: in `demoDbPurged` no record carries `u1.refresh.j1`, the store's revoke
reports no change, and `refresh` fails with status 401 and leaves the state. -/
theorem refresh_fails_when_revoke_reports_false_witness :
    (RefreshToken.revoke demoDbPurged "u1.refresh.j1").1 = false
    ∧ refresh demoEnv 1000 "j2" "r2" demoDbPurged "u1.refresh.j1" =
        (.error (.apiError 401 "無効なリフレッシュトークンです" none), demoDbPurged) :=
  ⟨rfl, refresh_fails_when_revoke_reports_false demoEnv 1000 "j2" "r2" demoDbPurged
    "u1.refresh.j1" rfl⟩

/-- When the checks of `refresh` have passed (the record is found and valid, the token
verifies with `type` equal to `refresh`, the account is found), the store's revoke of the
presented token reports a change, and `refresh` goes on with lines 155-186; the report is
not bound to a name. -/
theorem refresh_revoke_reports_change (env : Env) (now : Nat) (jti id : String) (db : Db)
    (t : String) (tokenRecord : RefreshTokenRecord) (decoded : JsObject) (user : User)
    (hrec : RefreshToken.findByToken db t = some tokenRecord)
    (hvalid : RefreshToken.isValid (some tokenRecord) now = true)
    (hdec : verifyToken env now t = some decoded)
    (htype : decoded.lookup "type" = some (.str "refresh"))
    (huser : User.findById db tokenRecord.userId = some user) :
    (RefreshToken.revoke db t).1 = true
    ∧ refresh env now jti id db t = refreshRotate env now jti id db user t := by
  constructor
  · rw [revoke_reports_row_exists]
    unfold RefreshToken.findByToken at hrec
    exact ⟨tokenRecord, List.mem_of_find?_eq_some hrec, by simpa using List.find?_some hrec⟩
  · unfold refresh
    simp [hrec, hvalid, hdec, htype, huser]

/-- Ann's token in `demoDb` at time 1000: the revoke inside `refresh` reports a change. -/
theorem refresh_revoke_reports_change_witness :
    (RefreshToken.revoke demoDb "u1.refresh.j1").1 = true
    ∧ refresh demoEnv 1000 "j2" "r2" demoDb "u1.refresh.j1" =
        refreshRotate demoEnv 1000 "j2" "r2" demoDb demoAnn "u1.refresh.j1" :=
  refresh_revoke_reports_change demoEnv 1000 "j2" "r2" demoDb "u1.refresh.j1"
    { id := "r1", userId := "u1", token := "u1.refresh.j1", expiresAt := 604800000,
      revoked := false, createdAt := 0 }
    [("userId", .str "u1"), ("type", .str "refresh"), ("jti", .str "j1")]
    demoAnn rfl rfl rfl rfl rfl

/-- What a successful `User.create` did: one row appended, carrying the given email, and
nothing else touched. -/
theorem user_create_ok (db db1 : Db) (now : Nat) (id : String) (ud : UserData)
    (res : Option User) (h : User.create db now id ud = (.ok res, db1)) :
    ∃ row : User, row.email = ud.email ∧ row.id = id
      ∧ db1 = { db with users := db.users ++ [row] } := by
  unfold User.create at h
  simp only at h
  split_ifs at h
  all_goals first
    | (simp only [Prod.mk.injEq, Except.ok.injEq] at h
       exact ⟨_, rfl, rfl, h.2.symm⟩)
    | simp at h

/-- What a successful `register` did: one row appended to `users`, carrying the given
email. -/
theorem register_ok (env : Env) (now : Nat) (salt id : String) (db db1 : Db)
    (userData : RegisterData) (res : Option JsObject)
    (h : register env now salt id db userData = (.ok res, db1)) :
    ∃ row : User, row.email = userData.email ∧ row.id = id
      ∧ db1 = { db with users := db.users ++ [row] } := by
  unfold register at h
  split_ifs at h
  · simp at h
  · simp only at h
    split at h
    · simp at h
    · simp at h
    · next user db1x hc =>
      simp only [Prod.mk.injEq, Except.ok.injEq] at h
      obtain ⟨_, hdb⟩ := h
      subst hdb
      exact user_create_ok _ _ _ _ _ _ hc

/-- An email carried by a row of `users` makes `register` throw the `ApiError` of status
409 and change nothing. -/
theorem register_existing_email (env : Env) (now : Nat) (salt id : String) (db : Db)
    (userData : RegisterData) (h : ∃ u ∈ db.users, u.email = userData.email) :
    register env now salt id db userData =
      (.error (.apiError 409 "このメールアドレスは既に登録されています" none), db) := by
  have hex : User.emailExists db userData.email = true := by
    unfold User.emailExists User.findByEmail
    rw [List.find?_isSome]
    obtain ⟨u, hu, he⟩ := h
    exact ⟨u, hu, by simpa using he⟩
  unfold register
  simp [hex, conflict]

/-- Claim C8. After `register` has succeeded for an email, a second `register` with the same
email, whatever the password, the name, the time and the fresh values, throws the
`ApiError` of status 409 and leaves the state as it was: no account is added. -/
theorem register_twice_conflict (env : Env) (now1 now2 : Nat) (salt1 id1 salt2 id2 : String)
    (db db1 : Db) (e p1 n1 p2 n2 : String) (res : Option JsObject)
    (h : register env now1 salt1 id1 db { email := e, password := p1, name := n1 }
          = (.ok res, db1)) :
    register env now2 salt2 id2 db1 { email := e, password := p2, name := n2 } =
      (.error (.apiError 409 "このメールアドレスは既に登録されています" none), db1) := by
  obtain ⟨row, hemail, _, hdb⟩ := register_ok env now1 salt1 id1 db db1 _ res h
  apply register_existing_email
  subst hdb
  exact ⟨row, by simp, hemail⟩

/-- Witness of C8: `a@x.com` registers in the empty database, and cannot register again. -/
theorem register_twice_conflict_witness :
    register demoEnv 5000 "s1" "u1" emptyDb
        { email := "a@x.com", password := "Password123", name := "Ann" } =
      (.ok (some [("id", .str "u1"), ("email", .str "a@x.com"), ("name", .str "Ann"),
                  ("role", .str "user"), ("createdAt", .num 5)]), demoDbLower)
    ∧ register demoEnv 9000 "s2" "u2" demoDbLower
        { email := "a@x.com", password := "Secret4567", name := "Bob" } =
      (.error (.apiError 409 "このメールアドレスは既に登録されています" none), demoDbLower) :=
  ⟨rfl, register_twice_conflict demoEnv 5000 9000 "s1" "u1" "s2" "u2" emptyDb demoDbLower
    "a@x.com" "Password123" "Ann" "Secret4567" "Bob" _ rfl⟩

/-- Claim C9 as stated fails: after `a@x.com` has registered, `register` with `A@x.com`,
the same email up to letter case, does not throw: it adds a second account. -/
theorem register_other_case_succeeds :
    "A@x.com".toList.map Char.toLower = "a@x.com".toList.map Char.toLower
    ∧ register demoEnv 5000 "s1" "u1" emptyDb
        { email := "a@x.com", password := "Password123", name := "Ann" } =
      (.ok (some [("id", .str "u1"), ("email", .str "a@x.com"), ("name", .str "Ann"),
                  ("role", .str "user"), ("createdAt", .num 5)]), demoDbLower)
    ∧ register demoEnv 9000 "s2" "u2" demoDbLower
        { email := "A@x.com", password := "Secret4567", name := "Bob" } =
      (.ok (some [("id", .str "u2"), ("email", .str "A@x.com"), ("name", .str "Bob"),
                  ("role", .str "user"), ("createdAt", .num 9)]), demoDbBoth) :=
  ⟨by decide, rfl, rfl⟩

/-- Claim C9 as amended. `register` throws the `ApiError` of status 409, and changes
nothing, whenever an account already exists whose email is the given email exactly, letter
case included. -/
theorem register_conflict_on_same_email (env : Env) (now : Nat) (salt id : String) (db : Db)
    (userData : RegisterData) (u : User) (hu : u ∈ db.users)
    (he : u.email = userData.email) :
    register env now salt id db userData =
      (.error (.apiError 409 "このメールアドレスは既に登録されています" none), db) :=
  register_existing_email env now salt id db userData ⟨u, hu, he⟩

/-- Witness of C9 as amended: `a@x.com` again, in `demoDbLower`. -/
theorem register_conflict_on_same_email_witness :
    register demoEnv 9000 "s2" "u2" demoDbLower
        { email := "a@x.com", password := "Secret4567", name := "Bob" } =
      (.error (.apiError 409 "このメールアドレスは既に登録されています" none), demoDbLower) :=
  register_conflict_on_same_email demoEnv 9000 "s2" "u2" demoDbLower
    { email := "a@x.com", password := "Secret4567", name := "Bob" }
    { id := "u1", email := "a@x.com", password := "s1$Password123", name := "Ann",
      role := "user", createdAt := 5 }
    (by simp [demoDbLower]) rfl

/-- The object `User.toSafeUser` makes of a row: the columns but `password`. -/
theorem user_toSafeUser_some (u : User) :
    User.toSafeUser (some u) =
      some [("id", .str u.id), ("email", .str u.email), ("name", .str u.name),
            ("role", .str u.role), ("createdAt", .num u.createdAt)] := by
  simp [User.toSafeUser, User.toObject, List.filter]

/-- Claim C10. When no account has the given email (and the `uuidv4()` drawn for the new
row is the id of no account), `register` appends exactly one row to `users`, with that
email, that name, the hash of the password and role `user`, touches nothing else, and
returns the object of that row's `id`, `email`, `name`, `role` and `createdAt`, which has
no `password` property. -/
theorem register_creates_account (env : Env) (now : Nat) (salt id : String) (db : Db)
    (userData : RegisterData)
    (hnew : ∀ u ∈ db.users, u.email ≠ userData.email)
    (hfresh : ∀ u ∈ db.users, u.id ≠ id) :
    register env now salt id db userData =
      (.ok (some [("id", .str id), ("email", .str userData.email),
                  ("name", .str userData.name), ("role", .str "user"),
                  ("createdAt", .num (currentTimestamp now))]),
       { db with users := db.users ++
           [{ id := id, email := userData.email,
              password := hashPassword env salt userData.password,
              name := userData.name, role := "user",
              createdAt := currentTimestamp now }] })
    ∧ List.lookup "password"
        [("id", JsVal.str id), ("email", .str userData.email),
         ("name", .str userData.name), ("role", .str "user"),
         ("createdAt", .num (currentTimestamp now))] = none := by
  have hemail : db.users.find? (fun u => u.email == userData.email) = none := by
    rw [List.find?_eq_none]
    intro u hu
    simpa using hnew u hu
  have hid : db.users.find? (fun u => u.id == id) = none := by
    rw [List.find?_eq_none]
    intro u hu
    simpa using hfresh u hu
  have hanyEmail : db.users.any (fun u => u.email == userData.email) = false := by
    rw [List.any_eq_false]
    intro u hu
    simpa using hnew u hu
  have hanyId : db.users.any (fun u => u.id == id) = false := by
    rw [List.any_eq_false]
    intro u hu
    simpa using hfresh u hu
  constructor
  · unfold register User.emailExists User.findByEmail User.create User.findById
    simp only [hemail, hanyEmail, hanyId, Option.isSome_none, Bool.false_eq_true, if_false,
      true_or, not_true_eq_false, List.find?_append, hid, Option.none_or, List.find?_cons,
      beq_self_eq_true, user_toSafeUser_some]
  · rfl

/-- Witness of C10: `b@x.com` registers at time 5000 in `demoDb`, where only Ann has an
account. -/
theorem register_creates_account_witness :
    register demoEnv 5000 "s2" "u2" demoDb
        { email := "b@x.com", password := "Secret4567", name := "Bob" } =
      (.ok (some [("id", .str "u2"), ("email", .str "b@x.com"), ("name", .str "Bob"),
                  ("role", .str "user"), ("createdAt", .num 5)]), demoDbBob)
    ∧ List.lookup "password"
        [("id", JsVal.str "u2"), ("email", .str "b@x.com"), ("name", .str "Bob"),
         ("role", .str "user"), ("createdAt", .num 5)] = none :=
  register_creates_account demoEnv 5000 "s2" "u2" demoDb
    { email := "b@x.com", password := "Secret4567", name := "Bob" }
    (by simp [demoDb]) (by simp [demoDb])

/-! ## The refresh-token store -/

/-- The value of `RefreshToken.isValid` on a record: not revoked, and the time is before the
expiry. -/
theorem isValid_some (r : RefreshTokenRecord) (now : Nat) :
    (RefreshToken.isValid (some r) now = true) = (r.revoked = false ∧ now < r.expiresAt) := by
  unfold RefreshToken.isValid
  cases hrev : r.revoked <;> simp [Nat.not_le, hrev]

/-- Claim C11. For every record and every time, `RefreshToken.isValid` is `true` exactly
when the record is not revoked and its expiry is strictly later than the time. -/
theorem isValid_iff_active (r : RefreshTokenRecord) (now : Nat) :
    RefreshToken.isValid (some r) now = true ↔ (r.revoked = false ∧ now < r.expiresAt) := by
  unfold RefreshToken.isValid
  cases hrev : r.revoked
  · by_cases hexp : r.expiresAt ≤ now
    · simp [hexp, hrev]
    · simp [hexp, hrev, Nat.lt_of_not_le hexp]
  · simp [hrev]

/-- The rows `RefreshToken.deleteExpired` leaves: those that are not revoked and whose
expiry is not earlier than the time; and the count it returns is the number of rows that
went. -/
theorem deleteExpired_result (db : Db) (now : Nat) :
    (∀ r, r ∈ (RefreshToken.deleteExpired db now).2.refresh_tokens ↔
        (r ∈ db.refresh_tokens ∧ r.revoked = false ∧ now ≤ r.expiresAt))
    ∧ (RefreshToken.deleteExpired db now).1 + (RefreshToken.deleteExpired db now).2.refresh_tokens.length
        = db.refresh_tokens.length
    ∧ (RefreshToken.deleteExpired db now).2.users = db.users := by
  unfold RefreshToken.deleteExpired
  refine ⟨?_, ?_, rfl⟩
  · intro r
    simp only [List.mem_filter, Bool.not_eq_true', Bool.or_eq_false_iff, decide_eq_false_iff_not,
      Nat.not_lt]
    tauto
  · simp only
    induction db.refresh_tokens with
    | nil => rfl
    | cons a l ih =>
      by_cases h : (decide (a.expiresAt < now) || a.revoked) = true
      · simp only [List.filter_cons, h, if_true, Bool.not_true, Bool.false_eq_true, if_false,
          List.length_cons]
        omega
      · have h1 : (decide (a.expiresAt < now) || a.revoked) = false := Bool.eq_false_iff.mpr h
        simp only [List.filter_cons, h1, Bool.false_eq_true, if_false, Bool.not_false, if_true,
          List.length_cons]
        omega

/-- Claim C13. `RefreshToken.deleteExpired` run at a time removes no record that is valid
at that time: every such record is still in the table afterwards, as it was. -/
theorem deleteExpired_keeps_valid (db : Db) (now : Nat) (r : RefreshTokenRecord)
    (hr : r ∈ db.refresh_tokens) (hvalid : RefreshToken.isValid (some r) now = true) :
    r ∈ (RefreshToken.deleteExpired db now).2.refresh_tokens := by
  rw [isValid_some] at hvalid
  obtain ⟨hrev, hexp⟩ := hvalid
  exact ((deleteExpired_result db now).1 r).mpr ⟨hr, hrev, Nat.le_of_lt hexp⟩

/-- Witness of C13: the sweep of `demoDbSweep` at time 1000 keeps Ann's active record. -/
theorem deleteExpired_keeps_valid_witness :
    RefreshToken.isValid (some
        { id := "r1", userId := "u1", token := "u1.refresh.j1", expiresAt := 604800000,
          revoked := false, createdAt := 0 }) 1000 = true
    ∧ RefreshToken.deleteExpired demoDbSweep 1000 = (1, demoDb)
    ∧ ({ id := "r1", userId := "u1", token := "u1.refresh.j1", expiresAt := 604800000,
         revoked := false, createdAt := 0 } : RefreshTokenRecord)
        ∈ (RefreshToken.deleteExpired demoDbSweep 1000).2.refresh_tokens :=
  ⟨rfl, rfl, deleteExpired_keeps_valid demoDbSweep 1000 _ (by simp [demoDbSweep]) rfl⟩

/-- Claim C14, the code at the failing input: the sweep of `demoDbSweep` at the very
millisecond 604800000 at which Ann's first record expires removes the revoked record only
and leaves the first one, which `RefreshToken.isValid` rejects at that time. -/
theorem deleteExpired_keeps_record_expiring_now :
    RefreshToken.deleteExpired demoDbSweep 604800000 = (1, demoDb)
    ∧ RefreshToken.findById demoDb "r1" = some
        { id := "r1", userId := "u1", token := "u1.refresh.j1", expiresAt := 604800000,
          revoked := false, createdAt := 0 }
    ∧ RefreshToken.isValid (RefreshToken.findById demoDb "r1") 604800000 = false :=
  ⟨rfl, rfl, rfl⟩

/-- Claim C15. `logout` never throws: for every state, token and caller id it returns the
message; and a second `logout` with the same token, by whichever caller, leaves the state
the first one left. -/
theorem logout_idempotent (db : Db) (t userId userId2 : String) :
    (logout db t userId).1 = { message := "ログアウトしました" }
    ∧ (logout (logout db t userId).2 t userId2).1 = { message := "ログアウトしました" }
    ∧ (logout (logout db t userId).2 t userId2).2 = (logout db t userId).2 := by
  refine ⟨rfl, rfl, ?_⟩
  unfold logout RefreshToken.revoke
  simp only [List.map_map]
  congr 1
  apply List.map_congr_left
  intro r _
  by_cases h : (r.token == t) = true
  · simp [Function.comp, h]
  · simp [Function.comp, h]

/-! ## The `revoked` flag is never cleared -/

/-- A table that is left alone keeps its flags. -/
theorem revokedKept_refl (l : List RefreshTokenRecord) : RevokedKept l l :=
  fun _ h => Or.inl h

/-- An `UPDATE ... SET revoked = 1` keeps the flags, whatever its `WHERE`. -/
theorem revokedKept_update (l : List RefreshTokenRecord) (p : RefreshTokenRecord → Bool) :
    RevokedKept l (l.map (fun r => if p r then { r with revoked := true } else r)) := by
  intro r1 h
  rw [List.mem_map] at h
  obtain ⟨r, hr, heq⟩ := h
  by_cases hp : p r = true
  · simp only [hp, if_true] at heq
    exact Or.inr (Or.inl ⟨r, hr, heq.symm⟩)
  · simp only [hp, Bool.false_eq_true, if_false] at heq
    subst heq
    exact Or.inl hr

/-- A `DELETE` keeps the flags, whatever its `WHERE`. -/
theorem revokedKept_delete (l : List RefreshTokenRecord) (p : RefreshTokenRecord → Bool) :
    RevokedKept l (l.filter p) :=
  fun _ h => Or.inl (List.mem_of_mem_filter h)

/-- The state `RefreshToken.create` leaves: the one before, or the one before with one
row more, under an id that no row carried. -/
theorem refreshToken_create_state (db : Db) (now : Nat) (id : String) (td : TokenData) :
    (RefreshToken.create db now id td).2 = db
    ∨ ((∀ r ∈ db.refresh_tokens, r.id ≠ id)
        ∧ (RefreshToken.create db now id td).2 =
            { db with refresh_tokens := db.refresh_tokens ++
                [{ id := id, userId := td.userId, token := td.token,
                   expiresAt := now + REFRESH_TOKEN_EXPIRY_MS, revoked := false,
                   createdAt := currentTimestamp now }] }) := by
  unfold RefreshToken.create
  split_ifs with h1 h2 h3
  · exact Or.inl rfl
  · exact Or.inl rfl
  · exact Or.inl rfl
  · refine Or.inr ⟨?_, rfl⟩
    intro r hr heq
    apply h1
    rw [List.any_eq_true]
    exact ⟨r, hr, by simpa using heq⟩

/-- An `INSERT` through `RefreshToken.create` keeps the flags. -/
theorem revokedKept_create (db : Db) (now : Nat) (id : String) (td : TokenData) :
    RevokedKept db.refresh_tokens (RefreshToken.create db now id td).2.refresh_tokens := by
  rcases refreshToken_create_state db now id td with h | ⟨hfresh, h⟩
  · rw [h]
    exact revokedKept_refl _
  · rw [h]
    intro r1 hr1
    simp only [List.mem_append, List.mem_singleton] at hr1
    rcases hr1 with hr1 | hr1
    · exact Or.inl hr1
    · subst hr1
      exact Or.inr (Or.inr hfresh)

/-- The state `login` leaves: the one before, or the one `RefreshToken.create` leaves. -/
theorem login_state (env : Env) (now : Nat) (jti id : String) (db : Db) (c : Credentials) :
    (login env now jti id db c).2 = db
    ∨ ∃ td, (login env now jti id db c).2 = (RefreshToken.create db now id td).2 := by
  unfold login
  split
  · exact Or.inl rfl
  · split_ifs
    · split
      · exact Or.inl rfl
      · split
        · exact Or.inl rfl
        · split
          · next heq => exact Or.inr ⟨_, by rw [heq]⟩
          · next heq => exact Or.inr ⟨_, by rw [heq]⟩
    · exact Or.inl rfl

/-- The state lines 155-186 of `refresh` leave: the one after the revoke, or the one
`RefreshToken.create` leaves after the revoke. -/
theorem refreshRotate_state (env : Env) (now : Nat) (jti id : String) (db : Db) (user : User)
    (t : String) :
    (refreshRotate env now jti id db user t).2 = (RefreshToken.revoke db t).2
    ∨ ∃ td, (refreshRotate env now jti id db user t).2 =
        (RefreshToken.create (RefreshToken.revoke db t).2 now id td).2 := by
  unfold refreshRotate
  simp only
  split
  · exact Or.inl rfl
  · split
    · exact Or.inl rfl
    · split
      · next heq => exact Or.inr ⟨_, by rw [heq]⟩
      · next heq => exact Or.inr ⟨_, by rw [heq]⟩

/-- The state `refresh` leaves: the one before when a check fails, otherwise the one lines
155-186 leave. -/
theorem refresh_state (env : Env) (now : Nat) (jti id : String) (db : Db) (t : String) :
    (refresh env now jti id db t).2 = db
    ∨ ∃ user, (refresh env now jti id db t).2 = (refreshRotate env now jti id db user t).2 := by
  unfold refresh
  split
  · exact Or.inl rfl
  · split_ifs
    · split
      · exact Or.inl rfl
      · split_ifs
        · exact Or.inl rfl
        · split
          · exact Or.inl rfl
          · exact Or.inr ⟨_, rfl⟩
    · exact Or.inl rfl

/-- The state `register` leaves has the table of refresh tokens it found. -/
theorem register_refresh_tokens (env : Env) (now : Nat) (salt id : String) (db : Db)
    (userData : RegisterData) :
    (register env now salt id db userData).2.refresh_tokens = db.refresh_tokens := by
  have hc : ∀ ud, (User.create db now id ud).2.refresh_tokens = db.refresh_tokens := by
    intro ud
    unfold User.create
    simp only
    split_ifs <;> rfl
  unfold register
  split_ifs
  · rfl
  · simp only
    split
    · next heq => rw [← hc, heq]
    · next heq => rw [← hc, heq]
    · next heq => rw [← hc, heq]

/-- The revoke of `refresh` followed by its `RefreshToken.create` keeps the flags. -/
theorem revokedKept_revoke_create (db : Db) (t : String) (now : Nat) (id : String)
    (td : TokenData) :
    RevokedKept db.refresh_tokens
      (RefreshToken.create (RefreshToken.revoke db t).2 now id td).2.refresh_tokens := by
  have hupd : RevokedKept db.refresh_tokens (RefreshToken.revoke db t).2.refresh_tokens :=
    revokedKept_update db.refresh_tokens (fun r => r.token == t)
  rcases refreshToken_create_state (RefreshToken.revoke db t).2 now id td with h | ⟨hfresh, h⟩
  · rw [h]
    exact hupd
  · rw [h]
    intro r1 hr1
    simp only [List.mem_append, List.mem_singleton] at hr1
    rcases hr1 with hr1 | hr1
    · exact hupd r1 hr1
    · subst hr1
      refine Or.inr (Or.inr ?_)
      intro r hr
      have hmem : (if (r.token == t) = true then { r with revoked := true } else r)
          ∈ (RefreshToken.revoke db t).2.refresh_tokens := by
        unfold RefreshToken.revoke
        exact List.mem_map.mpr ⟨r, hr, rfl⟩
      have hne := hfresh _ hmem
      split at hne <;> exact hne

/-- Every operation keeps the flags. -/
theorem revokedKept_run (env : Env) (op : Operation) (db : Db) :
    RevokedKept db.refresh_tokens (op.run env db).refresh_tokens := by
  cases op with
  | storeCreate now id td => exact revokedKept_create db now id td
  | storeRevoke t => exact revokedKept_update _ (fun r => r.token == t)
  | storeRevokeAllByUserId u =>
    exact revokedKept_update _ (fun r => r.userId == u && r.revoked == false)
  | storeDeleteExpired now => exact revokedKept_delete _ _
  | storeRemove id => exact revokedKept_delete _ _
  | register now salt id ud =>
    show RevokedKept db.refresh_tokens (register env now salt id db ud).2.refresh_tokens
    rw [register_refresh_tokens]
    exact revokedKept_refl _
  | login now jti id c =>
    show RevokedKept db.refresh_tokens (login env now jti id db c).2.refresh_tokens
    rcases login_state env now jti id db c with h | ⟨td, h⟩
    · rw [h]
      exact revokedKept_refl _
    · rw [h]
      exact revokedKept_create db now id td
  | refresh now jti id t =>
    show RevokedKept db.refresh_tokens (refresh env now jti id db t).2.refresh_tokens
    rcases refresh_state env now jti id db t with h | ⟨user, h⟩
    · rw [h]
      exact revokedKept_refl _
    · rw [h]
      rcases refreshRotate_state env now jti id db user t with h1 | ⟨td, h1⟩
      · rw [h1]
        exact revokedKept_update _ (fun r => r.token == t)
      · rw [h1]
        exact revokedKept_revoke_create db t now id td
  | logout t u => exact revokedKept_update _ (fun r => r.token == t)
  | revokeAllTokens u =>
    exact revokedKept_update _ (fun r => r.userId == u && r.revoked == false)

/-- Claim C12. No call of `create`, `revoke`, `revokeAllByUserId`, `deleteExpired` or
`remove` of the store, nor of `register`, `login`, `refresh`, `logout` or
`revokeAllTokens`, turns the `revoked` flag of an existing record from `true` to `false`:
in a table whose ids are distinct, as the primary key makes them, a record that is revoked
before the call is, if a record with its id is still there after the call, revoked. -/
theorem revoked_never_cleared (env : Env) (op : Operation) (db : Db)
    (hpk : (db.refresh_tokens.map (fun r => r.id)).Nodup)
    (r r1 : RefreshTokenRecord) (hr : r ∈ db.refresh_tokens) (hrev : r.revoked = true)
    (hr1 : r1 ∈ (op.run env db).refresh_tokens) (hid : r1.id = r.id) :
    r1.revoked = true := by
  rcases revokedKept_run env op db r1 hr1 with h | ⟨r0, _, h⟩ | h
  · have : r1 = r := List.inj_on_of_nodup_map hpk h hr hid
    rw [this]
    exact hrev
  · rw [h]
  · exact absurd hid.symm (h r hr)

/-- Witness of C12: the record revoked in `demoDb1` is still revoked after Ann has logged
in again at time 2000. -/
theorem revoked_never_cleared_witness :
    (demoDb1.refresh_tokens.map (fun r => r.id)).Nodup
    ∧ demoRevoked ∈ demoDb1.refresh_tokens
    ∧ demoRevoked ∈ ((Operation.login 2000 "j3" "r3"
          { email := "a@x.com", password := "Password123" }).run demoEnv demoDb1).refresh_tokens
    ∧ ((Operation.login 2000 "j3" "r3"
          { email := "a@x.com", password := "Password123" }).run demoEnv demoDb1).refresh_tokens.length
        = 3
    ∧ demoRevoked.revoked = true :=
  ⟨by decide, by decide, by decide, rfl,
    revoked_never_cleared demoEnv
      (Operation.login 2000 "j3" "r3" { email := "a@x.com", password := "Password123" })
      demoDb1 (by decide) demoRevoked demoRevoked (by decide) rfl (by decide) rfl⟩

/-! ## The messages and the results of `refresh` and `login` -/

/-- Claim C16 as stated fails: in `demoDb1` a token without a record and a token whose
record is revoked are both refused with status 401, under two different messages. -/
theorem refresh_messages_differ :
    refresh demoEnv 2000 "j3" "r3" demoDb1 "u1.refresh.j9" =
        (.error (.apiError 401 "無効なリフレッシュトークンです" none), demoDb1)
    ∧ refresh demoEnv 2000 "j3" "r3" demoDb1 "u1.refresh.j1" =
        (.error (.apiError 401 "リフレッシュトークンが無効または期限切れです" none), demoDb1)
    ∧ "無効なリフレッシュトークンです" ≠ "リフレッシュトークンが無効または期限切れです" :=
  ⟨rfl, rfl, by decide⟩

/-- Claim C16 as amended. A failure of `refresh` at the store check or at the token check
throws the `ApiError` of status 401, changes nothing, and carries one of two messages: one
when the token has no record, does not verify, or verifies with a `type` other than
`refresh`; another when the record is revoked or expired. -/
theorem refresh_failure_messages (env : Env) (now : Nat) (jti id : String) (db : Db)
    (t : String) :
    (RefreshToken.findByToken db t = none →
      refresh env now jti id db t =
        (.error (.apiError 401 "無効なリフレッシュトークンです" none), db))
    ∧ (∀ r, RefreshToken.findByToken db t = some r →
        RefreshToken.isValid (some r) now = false →
        refresh env now jti id db t =
          (.error (.apiError 401 "リフレッシュトークンが無効または期限切れです" none), db))
    ∧ (∀ r, RefreshToken.findByToken db t = some r →
        RefreshToken.isValid (some r) now = true →
        verifyToken env now t = none →
        refresh env now jti id db t =
          (.error (.apiError 401 "無効なリフレッシュトークンです" none), db))
    ∧ (∀ r decoded, RefreshToken.findByToken db t = some r →
        RefreshToken.isValid (some r) now = true →
        verifyToken env now t = some decoded →
        decoded.lookup "type" ≠ some (.str "refresh") →
        refresh env now jti id db t =
          (.error (.apiError 401 "無効なリフレッシュトークンです" none), db)) := by
  refine ⟨refresh_unknown env now jti id db t, ?_, ?_, ?_⟩
  · intro r hrec hinv
    unfold refresh
    simp [hrec, hinv, unauthorized]
  · intro r hrec hvalid hver
    unfold refresh
    simp [hrec, hvalid, hver, unauthorized]
  · intro r decoded hrec hvalid hver htype
    unfold refresh
    simp [hrec, hvalid, hver, htype, unauthorized]

/-- Witness of C16 as amended: Ann's revoked token in `demoDb1`, and in `demoDb` her active
token at time 1000 in the world that rejects every token. -/
theorem refresh_failure_messages_witness :
    refresh demoEnv 2000 "j3" "r3" demoDb1 "u1.refresh.j1" =
        (.error (.apiError 401 "リフレッシュトークンが無効または期限切れです" none), demoDb1)
    ∧ refresh demoEnvRejecting 1000 "j2" "r2" demoDb "u1.refresh.j1" =
        (.error (.apiError 401 "無効なリフレッシュトークンです" none), demoDb) :=
  ⟨(refresh_failure_messages demoEnv 2000 "j3" "r3" demoDb1 "u1.refresh.j1").2.1
      demoRevoked rfl rfl,
   (refresh_failure_messages demoEnvRejecting 1000 "j2" "r2" demoDb "u1.refresh.j1").2.2.1
      { id := "r1", userId := "u1", token := "u1.refresh.j1", expiresAt := 604800000,
        revoked := false, createdAt := 0 } rfl rfl rfl⟩

/-- What a successful run of lines 155-186 returned: the two tokens that were signed. -/
theorem refreshRotate_ok_tokens (env : Env) (now : Nat) (jti id : String) (db db2 : Db)
    (user : User) (t : String) (tokens : Tokens)
    (h : refreshRotate env now jti id db user t = (.ok tokens, db2)) :
    generateAccessToken env now { userId := user.id, email := user.email, role := user.role }
        = .ok tokens.accessToken
    ∧ generateRefreshToken env now jti user.id = .ok tokens.refreshToken
    ∧ tokens.expiresIn = getAccessTokenExpiresInSeconds env := by
  unfold refreshRotate at h
  simp only at h
  split at h
  · simp at h
  · next a ha =>
    split at h
    · simp at h
    · next b hb =>
      split at h
      · simp at h
      · simp only [Prod.mk.injEq, Except.ok.injEq] at h
        obtain ⟨h1, _⟩ := h
        subst h1
        exact ⟨ha, hb, rfl⟩

/-- The update of `RefreshToken.revoke` changes neither an id nor a token: what no row
carries after it, no row carried before. -/
theorem revoke_keeps_keys (db : Db) (t : String) (r : RefreshTokenRecord)
    (hr : r ∈ db.refresh_tokens) :
    ∃ r1 ∈ (RefreshToken.revoke db t).2.refresh_tokens, r1.id = r.id ∧ r1.token = r.token := by
  refine ⟨if (r.token == t) = true then { r with revoked := true } else r, ?_, ?_, ?_⟩
  · unfold RefreshToken.revoke
    exact List.mem_map.mpr ⟨r, hr, rfl⟩
  · split <;> rfl
  · split <;> rfl

/-- Claim C17. When `refresh(t)` succeeds, the table afterwards holds a record that was not
there before, under a new id and a new token: it is not revoked, it expires seven days
after the call, so it is valid at the time of the call, its token is the refresh token
returned, `findByToken` returns it for that token, and its owner is the owner of the record
of `t`; and the access token returned is the one signed from the id, email and role of the
account with that owner's id. -/
theorem refresh_ok_new_record (env : Env) (now : Nat) (jti id : String) (db db1 : Db)
    (t : String) (tokens : Tokens) (h : refresh env now jti id db t = (.ok tokens, db1)) :
    ∃ tokenRecord user r,
      RefreshToken.findByToken db t = some tokenRecord
      ∧ User.findById db tokenRecord.userId = some user
      ∧ user.id = tokenRecord.userId
      ∧ generateAccessToken env now
          { userId := user.id, email := user.email, role := user.role } = .ok tokens.accessToken
      ∧ r = { id := id, userId := tokenRecord.userId, token := tokens.refreshToken,
              expiresAt := now + REFRESH_TOKEN_EXPIRY_MS, revoked := false,
              createdAt := currentTimestamp now }
      ∧ r ∈ db1.refresh_tokens
      ∧ (∀ r0 ∈ db.refresh_tokens, r0.id ≠ r.id ∧ r0.token ≠ r.token)
      ∧ RefreshToken.findByToken db1 tokens.refreshToken = some r
      ∧ RefreshToken.isValid (some r) now = true
      ∧ db1.users = db.users := by
  obtain ⟨tokenRecord, _, user, hrec, _, _, _, huser, hrot⟩ :=
    refresh_ok env now jti id db db1 t tokens h
  obtain ⟨res, hc⟩ := refreshRotate_ok env now jti id db db1 user t tokens hrot
  obtain ⟨hacc, _, _⟩ := refreshRotate_ok_tokens env now jti id db db1 user t tokens hrot
  obtain ⟨hdb, htok, hid⟩ := refreshToken_create_ok _ _ _ _ _ _ hc
  have huid : user.id = tokenRecord.userId := by
    unfold User.findById at huser
    simpa using List.find?_some huser
  rw [List.any_eq_false] at htok hid
  refine ⟨tokenRecord, user, _, hrec, huser, huid, hacc, rfl, ?_, ?_, ?_, ?_, ?_⟩
  · rw [hdb, huid]
    simp
  · intro r0 hr0
    obtain ⟨r1, hr1, hid1, htok1⟩ := revoke_keeps_keys db t r0 hr0
    constructor
    · intro heq
      exact hid r1 hr1 (by simp [hid1, heq])
    · intro heq
      exact htok r1 hr1 (by simp [htok1, heq])
  · unfold RefreshToken.findByToken
    rw [hdb]
    have hnone : (RefreshToken.revoke db t).2.refresh_tokens.find?
        (fun r => r.token == tokens.refreshToken) = none := by
      rw [List.find?_eq_none]
      intro x hx
      exact htok x hx
    simp [List.find?_append, hnone, huid]
  · rw [isValid_some]
    exact ⟨rfl, by simp [REFRESH_TOKEN_EXPIRY_MS]⟩
  · rw [hdb]
    rfl

/-- Witness of C17: the redemption of Ann's token in `demoDb` at time 1000. -/
theorem refresh_ok_new_record_witness :
    refresh demoEnv 1000 "j2" "r2" demoDb "u1.refresh.j1" = (.ok demoTokens, demoDb1)
    ∧ ∃ tokenRecord user r,
      RefreshToken.findByToken demoDb "u1.refresh.j1" = some tokenRecord
      ∧ User.findById demoDb tokenRecord.userId = some user
      ∧ user.id = tokenRecord.userId
      ∧ generateAccessToken demoEnv 1000
          { userId := user.id, email := user.email, role := user.role }
          = .ok demoTokens.accessToken
      ∧ r = { id := "r2", userId := tokenRecord.userId, token := demoTokens.refreshToken,
              expiresAt := 1000 + REFRESH_TOKEN_EXPIRY_MS, revoked := false,
              createdAt := currentTimestamp 1000 }
      ∧ r ∈ demoDb1.refresh_tokens
      ∧ (∀ r0 ∈ demoDb.refresh_tokens, r0.id ≠ r.id ∧ r0.token ≠ r.token)
      ∧ RefreshToken.findByToken demoDb1 demoTokens.refreshToken = some r
      ∧ RefreshToken.isValid (some r) 1000 = true
      ∧ demoDb1.users = demoDb.users :=
  ⟨rfl, refresh_ok_new_record demoEnv 1000 "j2" "r2" demoDb demoDb1 "u1.refresh.j1"
    demoTokens rfl⟩

/-- What a successful `login` went through: the account was found, the password verified,
the two tokens were signed and `RefreshToken.create` stored the refresh token. -/
theorem login_ok (env : Env) (now : Nat) (jti id : String) (db db1 : Db) (c : Credentials)
    (tokens : Tokens) (h : login env now jti id db c = (.ok tokens, db1)) :
    ∃ user res,
      User.findByEmail db c.email = some user
      ∧ verifyPassword env c.password user.password = true
      ∧ generateAccessToken env now
          { userId := user.id, email := user.email, role := user.role } = .ok tokens.accessToken
      ∧ generateRefreshToken env now jti user.id = .ok tokens.refreshToken
      ∧ tokens.expiresIn = getAccessTokenExpiresInSeconds env
      ∧ RefreshToken.create db now id { userId := user.id, token := tokens.refreshToken }
          = (.ok res, db1) := by
  unfold login at h
  cases huser : User.findByEmail db c.email with
  | none => simp [huser, unauthorized] at h
  | some user =>
    simp only [huser] at h
    by_cases hpw : verifyPassword env c.password user.password = true
    · simp only [hpw, not_true_eq_false, if_false] at h
      split at h
      · simp at h
      · next a ha =>
        split at h
        · simp at h
        · next b hb =>
          split at h
          · simp at h
          · next res db1x hc =>
            simp only [Prod.mk.injEq, Except.ok.injEq] at h
            obtain ⟨h1, h2⟩ := h
            subst h1 h2
            exact ⟨user, res, rfl, hpw, ha, hb, rfl, hc⟩
    · simp [hpw, unauthorized] at h

/-- The update of `RefreshToken.revoke` moves no id. -/
theorem revoke_any_id (db : Db) (t x : String) :
    (RefreshToken.revoke db t).2.refresh_tokens.any (fun r => r.id == x)
      = db.refresh_tokens.any (fun r => r.id == x) := by
  unfold RefreshToken.revoke
  simp only [List.any_map]
  congr 1
  funext r
  simp only [Function.comp]
  split <;> rfl

/-- The update of `RefreshToken.revoke` moves no token. -/
theorem revoke_any_token (db : Db) (t x : String) :
    (RefreshToken.revoke db t).2.refresh_tokens.any (fun r => r.token == x)
      = db.refresh_tokens.any (fun r => r.token == x) := by
  unfold RefreshToken.revoke
  simp only [List.any_map]
  congr 1
  funext r
  simp only [Function.comp]
  split <;> rfl

/-- Lines 155-186 of `refresh` run to their end when the two tokens get signed, the id
and the token drawn are carried by no row and the account is in `users`. -/
theorem refreshRotate_succeeds (env : Env) (now : Nat) (jti id : String) (db : Db)
    (user : User) (t a b : String) (huser : user ∈ db.users)
    (ha : generateAccessToken env now
            { userId := user.id, email := user.email, role := user.role } = .ok a)
    (hb : generateRefreshToken env now jti user.id = .ok b)
    (hfresh : ∀ r0 ∈ db.refresh_tokens, r0.id ≠ id ∧ r0.token ≠ b) :
    ∃ db2, refreshRotate env now jti id db user t =
      (.ok { accessToken := a, refreshToken := b,
             expiresIn := getAccessTokenExpiresInSeconds env }, db2) := by
  have hid : (RefreshToken.revoke db t).2.refresh_tokens.any (fun r => r.id == id) = false := by
    rw [revoke_any_id, List.any_eq_false]
    intro r0 hr0
    simpa using (hfresh r0 hr0).1
  have htok : (RefreshToken.revoke db t).2.refresh_tokens.any (fun r => r.token == b) = false := by
    rw [revoke_any_token, List.any_eq_false]
    intro r0 hr0
    simpa using (hfresh r0 hr0).2
  have hfk : (RefreshToken.revoke db t).2.users.any (fun u => u.id == user.id) = true := by
    rw [List.any_eq_true]
    exact ⟨user, huser, by simp⟩
  unfold refreshRotate
  simp only [ha, hb]
  unfold RefreshToken.create
  simp only [hid, htok, hfk, Bool.false_eq_true, if_false, Bool.not_true, Bool.and_false]
  exact ⟨_, rfl⟩

/-- When its checks pass, `refresh` is lines 155-186. -/
theorem refresh_checks_pass (env : Env) (now : Nat) (jti id : String) (db : Db)
    (t : String) (tokenRecord : RefreshTokenRecord) (decoded : JsObject) (user : User)
    (hrec : RefreshToken.findByToken db t = some tokenRecord)
    (hvalid : RefreshToken.isValid (some tokenRecord) now = true)
    (hdec : verifyToken env now t = some decoded)
    (htype : decoded.lookup "type" = some (.str "refresh"))
    (huser : User.findById db tokenRecord.userId = some user) :
    refresh env now jti id db t = refreshRotate env now jti id db user t := by
  unfold refresh
  simp [hrec, hvalid, hdec, htype, huser]

/-- Claim C18. When `login` succeeds for an account, it returns the access token and the
refresh token signed for that account and `expiresIn`; the state afterwards is the state
before with one record more, which is not revoked, expires `REFRESH_TOKEN_EXPIRY_MS` (seven
days) after the call, carries the returned refresh token and is owned by the account; and
that token can be redeemed: at any time before the expiry at which it verifies with `type`
equal to `refresh`, `refresh` of it succeeds, provided the new tokens get signed and the
id and the token drawn for the new record are carried by no row. -/
theorem login_ok_redeemable (env : Env) (now : Nat) (jti id : String) (db db1 : Db)
    (c : Credentials) (tokens : Tokens)
    (h : login env now jti id db c = (.ok tokens, db1)) :
    ∃ user r user2,
      User.findByEmail db c.email = some user
      ∧ generateAccessToken env now
          { userId := user.id, email := user.email, role := user.role } = .ok tokens.accessToken
      ∧ generateRefreshToken env now jti user.id = .ok tokens.refreshToken
      ∧ tokens.expiresIn = getAccessTokenExpiresInSeconds env
      ∧ r = { id := id, userId := user.id, token := tokens.refreshToken,
              expiresAt := now + 7 * 24 * 60 * 60 * 1000, revoked := false,
              createdAt := currentTimestamp now }
      ∧ db1 = { db with refresh_tokens := db.refresh_tokens ++ [r] }
      ∧ RefreshToken.findByToken db1 tokens.refreshToken = some r
      ∧ RefreshToken.isValid (some r) now = true
      ∧ User.findById db1 r.userId = some user2
      ∧ ∀ (now2 : Nat) (jti2 id2 : String) (decoded : JsObject) (a2 b2 : String),
          now2 < r.expiresAt →
          verifyToken env now2 tokens.refreshToken = some decoded →
          decoded.lookup "type" = some (.str "refresh") →
          generateAccessToken env now2
            { userId := user2.id, email := user2.email, role := user2.role } = .ok a2 →
          generateRefreshToken env now2 jti2 user2.id = .ok b2 →
          (∀ r0 ∈ db1.refresh_tokens, r0.id ≠ id2 ∧ r0.token ≠ b2) →
          ∃ db2, refresh env now2 jti2 id2 db1 tokens.refreshToken =
            (.ok { accessToken := a2, refreshToken := b2,
                   expiresIn := getAccessTokenExpiresInSeconds env }, db2) := by
  obtain ⟨user, res, huser, _, hacc, href, hexp, hc⟩ := login_ok env now jti id db db1 c tokens h
  obtain ⟨hdb, htok, _⟩ := refreshToken_create_ok _ _ _ _ _ _ hc
  rw [List.any_eq_false] at htok
  have hmem : user ∈ db1.users := by
    rw [hdb]
    unfold User.findByEmail at huser
    exact List.mem_of_find?_eq_some huser
  have hsome : (User.findById db1 user.id).isSome = true := by
    unfold User.findById
    rw [List.find?_isSome]
    exact ⟨user, hmem, by simp⟩
  obtain ⟨user2, huser2⟩ := Option.isSome_iff_exists.mp hsome
  have hfind : RefreshToken.findByToken db1 tokens.refreshToken = some
      { id := id, userId := user.id, token := tokens.refreshToken,
        expiresAt := now + 7 * 24 * 60 * 60 * 1000, revoked := false,
        createdAt := currentTimestamp now } := by
    unfold RefreshToken.findByToken
    rw [hdb]
    have hnone : db.refresh_tokens.find? (fun r => r.token == tokens.refreshToken) = none := by
      rw [List.find?_eq_none]
      intro x hx
      exact htok x hx
    simp [List.find?_append, hnone, REFRESH_TOKEN_EXPIRY_MS]
  refine ⟨user, _, user2, huser, hacc, href, hexp, rfl, ?_, hfind, ?_, huser2, ?_⟩
  · rw [hdb]
    rfl
  · rw [isValid_some]
    exact ⟨rfl, by simp⟩
  · intro now2 jti2 id2 decoded a2 b2 hnow hver htype ha2 hb2 hfresh
    have hvalid : RefreshToken.isValid (some
        { id := id, userId := user.id, token := tokens.refreshToken,
          expiresAt := now + 7 * 24 * 60 * 60 * 1000, revoked := false,
          createdAt := currentTimestamp now }) now2 = true := by
      rw [isValid_some]
      exact ⟨rfl, hnow⟩
    have hmem2 : user2 ∈ db1.users := by
      unfold User.findById at huser2
      exact List.mem_of_find?_eq_some huser2
    obtain ⟨db2, hrot⟩ := refreshRotate_succeeds env now2 jti2 id2 db1 user2
      tokens.refreshToken a2 b2 hmem2 ha2 hb2 hfresh
    refine ⟨db2, ?_⟩
    rw [← hrot]
    exact (refresh_checks_pass env now2 jti2 id2 db1 tokens.refreshToken _
      decoded user2 hfind hvalid hver htype huser2)

/-- Witness of C18: Ann logs in at time 2000 in `demoDb`. -/
theorem login_ok_redeemable_witness :
    login demoEnv 2000 "j3" "r3" demoDb { email := "a@x.com", password := "Password123" }
      = (.ok demoLoginTokens, demoDbLogin)
    ∧ refresh demoEnv 5000 "j4" "r4" demoDbLogin "u1.refresh.j3" =
        (.ok { accessToken := "u1.a@x.com.user.access", refreshToken := "u1.refresh.j4",
               expiresIn := 3600 },
         (refresh demoEnv 5000 "j4" "r4" demoDbLogin "u1.refresh.j3").2)
    ∧ ∃ user r user2,
      User.findByEmail demoDb "a@x.com" = some user
      ∧ generateAccessToken demoEnv 2000
          { userId := user.id, email := user.email, role := user.role }
          = .ok demoLoginTokens.accessToken
      ∧ generateRefreshToken demoEnv 2000 "j3" user.id = .ok demoLoginTokens.refreshToken
      ∧ demoLoginTokens.expiresIn = getAccessTokenExpiresInSeconds demoEnv
      ∧ r = { id := "r3", userId := user.id, token := demoLoginTokens.refreshToken,
              expiresAt := 2000 + 7 * 24 * 60 * 60 * 1000, revoked := false,
              createdAt := currentTimestamp 2000 }
      ∧ demoDbLogin = { demoDb with refresh_tokens := demoDb.refresh_tokens ++ [r] }
      ∧ RefreshToken.findByToken demoDbLogin demoLoginTokens.refreshToken = some r
      ∧ RefreshToken.isValid (some r) 2000 = true
      ∧ User.findById demoDbLogin r.userId = some user2
      ∧ ∀ (now2 : Nat) (jti2 id2 : String) (decoded : JsObject) (a2 b2 : String),
          now2 < r.expiresAt →
          verifyToken demoEnv now2 demoLoginTokens.refreshToken = some decoded →
          decoded.lookup "type" = some (.str "refresh") →
          generateAccessToken demoEnv now2
            { userId := user2.id, email := user2.email, role := user2.role } = .ok a2 →
          generateRefreshToken demoEnv now2 jti2 user2.id = .ok b2 →
          (∀ r0 ∈ demoDbLogin.refresh_tokens, r0.id ≠ id2 ∧ r0.token ≠ b2) →
          ∃ db2, refresh demoEnv now2 jti2 id2 demoDbLogin demoLoginTokens.refreshToken =
            (.ok { accessToken := a2, refreshToken := b2,
                   expiresIn := getAccessTokenExpiresInSeconds demoEnv }, db2) :=
  ⟨rfl, rfl, login_ok_redeemable demoEnv 2000 "j3" "r3" demoDb demoDbLogin
    { email := "a@x.com", password := "Password123" } demoLoginTokens rfl⟩

/-! ## `revokeAllTokens` -/

/-- Claim C19 as stated fails: at time 700000000 Ann's record in `demoDb` is past its
expiry, so she has no active record, and `revokeAllTokens` still counts it. -/
theorem revokeAllTokens_counts_expired :
    (demoDb.refresh_tokens.filter
        (fun r => r.userId == "u1" && RefreshToken.isValid (some r) 700000000)).length = 0
    ∧ (revokeAllTokens demoDb "u1").1 = 1 :=
  ⟨rfl, rfl⟩

/-- Claim C19 as amended. `revokeAllTokens(userId)` returns the number of that account's
records that were not revoked before the call, expired ones included; after the call every
record owned by that account is revoked, so none is valid at any time; the records owned by
other accounts are the same before and after, and so is the table `users`. -/
theorem revokeAllTokens_result (db : Db) (userId : String) :
    (revokeAllTokens db userId).1 =
        (db.refresh_tokens.filter (fun r => r.userId == userId && !r.revoked)).length
    ∧ (revokeAllTokens db userId).2.refresh_tokens =
        db.refresh_tokens.map
          (fun r => if r.userId = userId then { r with revoked := true } else r)
    ∧ (∀ r ∈ (revokeAllTokens db userId).2.refresh_tokens, r.userId = userId →
        r.revoked = true ∧ ∀ now, RefreshToken.isValid (some r) now = false)
    ∧ (∀ r : RefreshTokenRecord, r.userId ≠ userId →
        (r ∈ (revokeAllTokens db userId).2.refresh_tokens ↔ r ∈ db.refresh_tokens))
    ∧ (revokeAllTokens db userId).2.users = db.users := by
  have hmap : (revokeAllTokens db userId).2.refresh_tokens =
      db.refresh_tokens.map
        (fun r => if r.userId = userId then { r with revoked := true } else r) := by
    unfold revokeAllTokens RefreshToken.revokeAllByUserId
    apply List.map_congr_left
    intro r _
    obtain ⟨rid, ruser, rtoken, rexp, rrev, rcreated⟩ := r
    by_cases hu : ruser = userId
    · cases rrev <;> simp [hu]
    · simp [hu]
  refine ⟨?_, hmap, ?_, ?_, rfl⟩
  · unfold revokeAllTokens RefreshToken.revokeAllByUserId
    simp only
    congr 1
    apply List.filter_congr
    intro r _
    cases r.revoked <;> simp
  · intro r hr hu
    rw [hmap, List.mem_map] at hr
    obtain ⟨r0, _, heq⟩ := hr
    have hrev : r.revoked = true := by
      by_cases h0 : r0.userId = userId
      · simp only [h0, if_true] at heq
        rw [← heq]
      · simp only [h0, if_false] at heq
        rw [← heq] at hu
        exact absurd hu h0
    refine ⟨hrev, fun now => ?_⟩
    simp [RefreshToken.isValid, hrev]
  · intro r hu
    rw [hmap, List.mem_map]
    constructor
    · rintro ⟨r0, hr0, heq⟩
      by_cases h0 : r0.userId = userId
      · simp only [h0, if_true] at heq
        rw [← heq] at hu
        exact absurd rfl hu
      · simp only [h0, if_false] at heq
        rw [← heq]
        exact hr0
    · intro hr
      exact ⟨r, hr, by simp [hu]⟩

/-- Witness of C19 as amended: Ann's tokens are revoked in `demoDbTwo`; one was not revoked
before, and Bob's record stays as it was. -/
theorem revokeAllTokens_result_witness :
    revokeAllTokens demoDbTwo "u1" = (1, demoDbTwoRevoked)
    ∧ (({ id := "r5", userId := "u2", token := "u2.refresh.j5", expiresAt := 604900000,
          revoked := false, createdAt := 100 } : RefreshTokenRecord)
        ∈ (revokeAllTokens demoDbTwo "u1").2.refresh_tokens ↔
       ({ id := "r5", userId := "u2", token := "u2.refresh.j5", expiresAt := 604900000,
          revoked := false, createdAt := 100 } : RefreshTokenRecord)
        ∈ demoDbTwo.refresh_tokens) :=
  ⟨rfl, (revokeAllTokens_result demoDbTwo "u1").2.2.2.1 _ (by decide)⟩

/-! ## `authenticate` -/

/-- One step of `splitChar`. -/
theorem splitChar_cons (sep c : Char) (cs : List Char) :
    splitChar sep (c :: cs) =
      if c = sep then [] :: splitChar sep cs
      else match splitChar sep cs with
        | [] => [[c]]
        | part :: parts => (c :: part) :: parts := rfl

/-- A split has at least one part. -/
theorem splitChar_ne_nil (sep : Char) (cs : List Char) : splitChar sep cs ≠ [] := by
  induction cs with
  | nil => simp [splitChar]
  | cons c cs ih =>
    rw [splitChar_cons]
    split_ifs
    · simp
    · split <;> simp

/-- A split in one part: the text has no separator. -/
theorem splitChar_one (sep : Char) (cs a : List Char) (h : splitChar sep cs = [a]) :
    cs = a ∧ sep ∉ a := by
  induction cs generalizing a with
  | nil =>
    simp only [splitChar, List.foldr_nil, List.cons.injEq, and_true] at h
    subst h
    simp
  | cons c cs ih =>
    rw [splitChar_cons] at h
    split_ifs at h with hc
    · simp only [List.cons.injEq] at h
      exact absurd h.2 (splitChar_ne_nil sep cs)
    · split at h
      · next hnil => exact absurd hnil (splitChar_ne_nil sep cs)
      · next part parts hparts =>
        simp only [List.cons.injEq] at h
        obtain ⟨ha, hp⟩ := h
        subst ha hp
        obtain ⟨h1, h2⟩ := ih part hparts
        subst h1
        refine ⟨rfl, ?_⟩
        simp only [List.mem_cons, not_or]
        exact ⟨fun h => hc h.symm, h2⟩

/-- A split in two parts: the text is the first part, one separator, the second part, and
neither part has a separator. -/
theorem splitChar_two (sep : Char) (cs a b : List Char) (h : splitChar sep cs = [a, b]) :
    cs = a ++ sep :: b ∧ sep ∉ a ∧ sep ∉ b := by
  induction cs generalizing a with
  | nil => simp [splitChar] at h
  | cons c cs ih =>
    rw [splitChar_cons] at h
    split_ifs at h with hc
    · simp only [List.cons.injEq] at h
      obtain ⟨ha, hb⟩ := h
      subst ha
      obtain ⟨h1, h2⟩ := splitChar_one sep cs b hb
      subst h1 hc
      simp [h2]
    · split at h
      · next hnil => exact absurd hnil (splitChar_ne_nil sep cs)
      · next part parts hparts =>
        simp only [List.cons.injEq] at h
        obtain ⟨ha, hp⟩ := h
        subst ha hp
        obtain ⟨h1, h2, h3⟩ := ih part hparts
        refine ⟨by rw [h1]; rfl, ?_, h3⟩
        simp only [List.mem_cons, not_or]
        exact ⟨fun h => hc h.symm, h2⟩

/-- A text without separator splits in one part. -/
theorem splitChar_of_not_mem (sep : Char) (b : List Char) (h : sep ∉ b) :
    splitChar sep b = [b] := by
  induction b with
  | nil => rfl
  | cons c cs ih =>
    simp only [List.mem_cons, not_or] at h
    rw [splitChar_cons, ih h.2]
    simp [Ne.symm h.1]

/-- A separator after a text without separator closes the first part. -/
theorem splitChar_append (sep : Char) (a b : List Char) (h : sep ∉ a) :
    splitChar sep (a ++ sep :: b) = a :: splitChar sep b := by
  induction a with
  | nil => simp [splitChar_cons]
  | cons c cs ih =>
    simp only [List.mem_cons, not_or] at h
    rw [List.cons_append, splitChar_cons, ih h.2]
    simp [Ne.symm h.1]

/-- The header `Bearer`, one space, a token without space splits in these two parts. -/
theorem splitChar_bearer (token : List Char) (h : ' ' ∉ token) :
    splitChar ' ' ("Bearer ".toList ++ token) = ["Bearer".toList, token] := by
  have h1 : splitChar ' ' ("Bearer".toList ++ ' ' :: token)
      = "Bearer".toList :: splitChar ' ' token :=
    splitChar_append ' ' "Bearer".toList token (by decide)
  rw [splitChar_of_not_mem ' ' token h] at h1
  exact h1

/-- When `authenticate` sets an identity: the header is `Bearer`, one space and a token
without space, the token verifies with `type` equal to `access`, and the lookup of the
claimed id returns an account, whose four fields the identity has. -/
theorem authenticate_ok_iff (env : Env) (now : Nat) (db : Db) (authorization : Option String)
    (identity : Identity) :
    authenticate env now db authorization = .ok identity ↔
      ∃ token decoded user,
        authorization = some ("Bearer " ++ token) ∧ ' ' ∉ token.toList
        ∧ verifyToken env now token = some decoded
        ∧ decoded.lookup "type" = some (.str "access")
        ∧ User.findByClaimedId db decoded = .ok (some user)
        ∧ identity = { id := user.id, email := user.email, name := user.name,
                       role := user.role } := by
  constructor
  · intro h
    unfold authenticate at h
    cases authorization with
    | none => simp [unauthorized] at h
    | some authHeader =>
      simp only at h
      by_cases hempty : authHeader = ""
      · simp [hempty, unauthorized] at h
      · simp only [hempty, if_false] at h
        split at h
        · next scheme token hsplit =>
          by_cases hscheme : String.mk scheme = "Bearer"
          · simp only [hscheme, ne_eq, not_true_eq_false, if_false] at h
            cases hver : verifyToken env now (String.mk token) with
            | none => simp [hver, unauthorized] at h
            | some decoded =>
              simp only [hver] at h
              by_cases htype : decoded.lookup "type" = some (.str "access")
              · simp only [htype, ne_eq, not_true_eq_false, if_false] at h
                cases hfind : User.findByClaimedId db decoded with
                | error e => simp [hfind] at h
                | ok found =>
                  cases found with
                  | none => simp [hfind, unauthorized] at h
                  | some user =>
                    simp only [hfind, Except.ok.injEq] at h
                    obtain ⟨hcs, _, htok⟩ := splitChar_two ' ' _ scheme token hsplit
                    refine ⟨String.mk token, decoded, user, ?_, htok, hver, htype, hfind,
                      h.symm⟩
                    have hs : scheme = "Bearer".toList := congrArg String.toList hscheme
                    rw [hs] at hcs
                    congr 1
                    exact String.ext hcs
              · simp [htype, unauthorized] at h
          · simp [hscheme, unauthorized] at h
        · simp [unauthorized] at h
  · rintro ⟨token, decoded, user, hauth, hspace, hver, htype, hfind, hid⟩
    subst hauth hid
    have hne : ("Bearer " ++ token) ≠ "" := by
      intro h
      have hd := congrArg String.toList h
      rw [String.toList, String.data_append] at hd
      exact absurd hd (by simp [String.toList])
    have hsplit : splitChar ' ' ("Bearer " ++ token).toList = ["Bearer".toList, token.toList] :=
      splitChar_bearer token.toList hspace
    unfold authenticate
    simp only [hne, if_false, hsplit]
    have hmk : String.mk token.toList = token := rfl
    have hb : String.mk "Bearer".toList = "Bearer" := rfl
    simp only [hmk, hb, ne_eq, not_true_eq_false, if_false, hver, htype, hfind]

/-- What `authenticate` passes to `next` when it sets no identity: the `ApiError` of
status 401, unless the lookup of the claimed id itself throws. -/
theorem authenticate_error (env : Env) (now : Nat) (db : Db) (authorization : Option String)
    (e : JsError) (h : authenticate env now db authorization = .error e) :
    (∃ message, e = .apiError 401 message none)
    ∨ ∃ token decoded, verifyToken env now token = some decoded
        ∧ User.findByClaimedId db decoded = .error e := by
  unfold authenticate at h
  cases authorization with
  | none =>
    simp only [Except.error.injEq] at h
    exact Or.inl ⟨_, h.symm⟩
  | some authHeader =>
    simp only at h
    by_cases hempty : authHeader = ""
    · simp only [hempty, if_true, Except.error.injEq] at h
      exact Or.inl ⟨_, h.symm⟩
    · simp only [hempty, if_false] at h
      split at h
      · next scheme token hsplit =>
        by_cases hscheme : String.mk scheme = "Bearer"
        · simp only [hscheme, ne_eq, not_true_eq_false, if_false] at h
          cases hver : verifyToken env now (String.mk token) with
          | none =>
            simp only [hver, Except.error.injEq] at h
            exact Or.inl ⟨_, h.symm⟩
          | some decoded =>
            simp only [hver] at h
            by_cases htype : decoded.lookup "type" = some (.str "access")
            · simp only [htype, ne_eq, not_true_eq_false, if_false] at h
              cases hfind : User.findByClaimedId db decoded with
              | error e1 =>
                simp only [hfind, Except.error.injEq] at h
                subst h
                exact Or.inr ⟨_, decoded, hver, hfind⟩
              | ok found =>
                cases found with
                | none =>
                  simp only [hfind, Except.error.injEq] at h
                  exact Or.inl ⟨_, h.symm⟩
                | some user => simp [hfind] at h
            · simp only [htype, ne_eq, not_false_eq_true, if_true, Except.error.injEq] at h
              exact Or.inl ⟨_, h.symm⟩
        · simp only [hscheme, ne_eq, not_false_eq_true, if_true, Except.error.injEq] at h
          exact Or.inl ⟨_, h.symm⟩
      · simp only [Except.error.injEq] at h
        exact Or.inl ⟨_, h.symm⟩

/-- The case of claims that carry their `userId` as a text, as every token signed by
`generateAccessToken` and `generateRefreshToken` does: `authenticate` sets an identity
exactly when the header is present and is `Bearer`, one space and a token without space,
the token passes `verifyToken`, its `type` is `access` and `User.findById` returns an
account for its `userId`; the identity is then the `id`, `email`, `name` and `role` of that
account, an object without `password`. In every other case `authenticate` passes the
`ApiError` of status 401 to `next` and sets no identity. -/
theorem authenticate_resolves (env : Env) (now : Nat) (db : Db)
    (authorization : Option String)
    (hclaims : ∀ token decoded, verifyToken env now token = some decoded →
      ∃ userId, decoded.lookup "userId" = some (.str userId)) :
    (∀ identity, authenticate env now db authorization = .ok identity ↔
        ∃ token decoded userId user,
          authorization = some ("Bearer " ++ token) ∧ ' ' ∉ token.toList
          ∧ verifyToken env now token = some decoded
          ∧ decoded.lookup "type" = some (.str "access")
          ∧ decoded.lookup "userId" = some (.str userId)
          ∧ User.findById db userId = some user
          ∧ identity = { id := user.id, email := user.email, name := user.name,
                         role := user.role })
    ∧ ((∃ identity, authenticate env now db authorization = .ok identity
          ∧ identity.toObject.lookup "password" = none)
       ∨ ∃ message, authenticate env now db authorization
          = .error (.apiError 401 message none)) := by
  have hfind : ∀ token decoded user, verifyToken env now token = some decoded →
      (User.findByClaimedId db decoded = .ok (some user) ↔
        ∃ userId, decoded.lookup "userId" = some (.str userId)
          ∧ User.findById db userId = some user) := by
    intro token decoded user hver
    obtain ⟨userId, hu⟩ := hclaims token decoded hver
    unfold User.findByClaimedId
    simp [hu]
  constructor
  · intro identity
    rw [authenticate_ok_iff]
    constructor
    · rintro ⟨token, decoded, user, h1, h2, h3, h4, h5, h6⟩
      obtain ⟨userId, h7, h8⟩ := (hfind token decoded user h3).mp h5
      exact ⟨token, decoded, userId, user, h1, h2, h3, h4, h7, h8, h6⟩
    · rintro ⟨token, decoded, userId, user, h1, h2, h3, h4, h7, h8, h6⟩
      exact ⟨token, decoded, user, h1, h2, h3, h4,
        (hfind token decoded user h3).mpr ⟨userId, h7, h8⟩, h6⟩
  · cases hres : authenticate env now db authorization with
    | ok identity => exact Or.inl ⟨identity, rfl, rfl⟩
    | error e =>
      rcases authenticate_error env now db authorization e hres with ⟨m, hm⟩ | ⟨token, decoded, hver, herr⟩
      · exact Or.inr ⟨m, by rw [hm]⟩
      · obtain ⟨userId, hu⟩ := hclaims token decoded hver
        unfold User.findByClaimedId at herr
        simp [hu] at herr

/-- The claims the world `demoEnvAccess` verifies carry their `userId` as a text. -/
theorem demoEnvAccess_claims (now : Nat) (token : String) (decoded : JsObject)
    (h : verifyToken demoEnvAccess now token = some decoded) :
    ∃ userId, decoded.lookup "userId" = some (.str userId) := by
  unfold verifyToken demoEnvAccess at h
  simp only at h
  split at h
  · next d hd =>
    simp only [Option.some.injEq] at h
    subst h
    split at hd
    · split_ifs at hd
      · simp only [Except.ok.injEq] at hd
        subst hd
        exact ⟨_, rfl⟩
    · split_ifs at hd
      · simp only [Except.ok.injEq] at hd
        subst hd
        exact ⟨_, rfl⟩
    · simp at hd
  · simp at h

/-- In `demoDb` Ann's access token resolves to her identity, and her refresh token is
refused with status 401. -/
theorem authenticate_resolves_witness :
    authenticate demoEnvAccess 3000 demoDb (some "Bearer u1.a@x.com.user.access")
      = .ok { id := "u1", email := "a@x.com", name := "Ann", role := "user" }
    ∧ authenticate demoEnvAccess 3000 demoDb (some "Bearer u1.refresh.j1")
      = .error (.apiError 401 "アクセストークンが必要です" none)
    ∧ ((∃ identity, authenticate demoEnvAccess 3000 demoDb
            (some "Bearer u1.a@x.com.user.access") = .ok identity
          ∧ identity.toObject.lookup "password" = none)
       ∨ ∃ message, authenticate demoEnvAccess 3000 demoDb
            (some "Bearer u1.a@x.com.user.access") = .error (.apiError 401 message none)) :=
  ⟨rfl, rfl,
    (authenticate_resolves demoEnvAccess 3000 demoDb (some "Bearer u1.a@x.com.user.access")
      (demoEnvAccess_claims 3000)).2⟩

set_option maxRecDepth 100000 in
/-- Claim C20 as stated fails: the toy codec signs and verifies a token of `type` `access`
whose `userId` is the boolean `true`; the header with it is well formed, and `authenticate`
passes to `next` the `TypeError` that the lookup throws, which is no `ApiError` of status
401. -/
theorem authenticate_passes_lookup_error :
    codecEnv.jwtSign [("userId", .bool true), ("type", .str "access")] codecEnv.jwt.secret
        codecEnv.jwt.accessExpiresIn 5000 = .ok codecBooleanToken
    ∧ verifyToken codecEnv 6000 codecBooleanToken = some
        [("userId", .bool true), ("type", .str "access"), ("iat", .num 5), ("exp", .num 3605)]
    ∧ authenticate codecEnv 6000 demoDb (some ("Bearer " ++ codecBooleanToken)) =
        .error (.other "TypeError"
          "SQLite3 can only bind numbers, strings, bigints, buffers, and null" none)
    ∧ ∀ message details, authenticate codecEnv 6000 demoDb
        (some ("Bearer " ++ codecBooleanToken)) ≠ .error (.apiError 401 message details) := by
  have h : authenticate codecEnv 6000 demoDb (some ("Bearer " ++ codecBooleanToken)) =
      .error (.other "TypeError"
        "SQLite3 can only bind numbers, strings, bigints, buffers, and null" none) := rfl
  refine ⟨rfl, rfl, h, ?_⟩
  intro message details hm
  rw [h] at hm
  cases hm

/-- Claim C20 as amended. `authenticate` sets an identity exactly when the header is
present and is `Bearer`, one space and a token without space, the token passes
`verifyToken`, its `type` is `access` and the lookup of the claimed `userId` returns an
account, which for a `userId` that is a text is the account `User.findById` returns for it;
the identity is then the `id`, `email`, `name` and `role` of that account, an object without
`password`. In every other case `authenticate` sets no identity and passes an error to
`next`: the `ApiError` of status 401, or, for a verified token whose `userId` is a value
that the store refuses to bind, which among the values of claims here is a boolean, the
`TypeError` the lookup throws. -/
theorem authenticate_cases (env : Env) (now : Nat) (db : Db)
    (authorization : Option String) :
    (∀ identity, authenticate env now db authorization = .ok identity ↔
        ∃ token decoded user,
          authorization = some ("Bearer " ++ token) ∧ ' ' ∉ token.toList
          ∧ verifyToken env now token = some decoded
          ∧ decoded.lookup "type" = some (.str "access")
          ∧ User.findByClaimedId db decoded = .ok (some user)
          ∧ identity = { id := user.id, email := user.email, name := user.name,
                         role := user.role })
    ∧ (∀ decoded userId, decoded.lookup "userId" = some (.str userId) →
        User.findByClaimedId db decoded = .ok (User.findById db userId))
    ∧ (∀ identity, authenticate env now db authorization = .ok identity →
        identity.toObject.lookup "password" = none)
    ∧ (∀ e, authenticate env now db authorization = .error e →
        (∃ message, e = .apiError 401 message none)
        ∨ ∃ token decoded b, verifyToken env now token = some decoded
            ∧ decoded.lookup "userId" = some (.bool b)
            ∧ e = .other "TypeError"
                "SQLite3 can only bind numbers, strings, bigints, buffers, and null" none) := by
  refine ⟨fun identity => authenticate_ok_iff env now db authorization identity, ?_,
    fun _ _ => rfl, ?_⟩
  · intro decoded userId hu
    unfold User.findByClaimedId
    rw [hu]
  · intro e he
    rcases authenticate_error env now db authorization e he with hm | ⟨token, decoded, hver, herr⟩
    · exact Or.inl hm
    · right
      unfold User.findByClaimedId at herr
      split at herr
      · cases herr
      · cases herr
      · next b hb =>
        simp only [Except.error.injEq] at herr
        exact ⟨token, decoded, b, hver, hb, herr.symm⟩
      · cases herr

/-- Witness of C20 as amended: in `demoDb` Ann's access token resolves to her identity,
through a header, a token and claims as the theorem names them, and her refresh token is
refused with status 401. -/
theorem authenticate_cases_witness :
    authenticate demoEnvAccess 3000 demoDb (some "Bearer u1.a@x.com.user.access")
      = .ok { id := "u1", email := "a@x.com", name := "Ann", role := "user" }
    ∧ (∃ token decoded user,
        some "Bearer u1.a@x.com.user.access" = some ("Bearer " ++ token)
        ∧ ' ' ∉ token.toList
        ∧ verifyToken demoEnvAccess 3000 token = some decoded
        ∧ decoded.lookup "type" = some (.str "access")
        ∧ User.findByClaimedId demoDb decoded = .ok (some user)
        ∧ ({ id := "u1", email := "a@x.com", name := "Ann", role := "user" } : Identity) =
            { id := user.id, email := user.email, name := user.name, role := user.role })
    ∧ authenticate demoEnvAccess 3000 demoDb (some "Bearer u1.refresh.j1")
      = .error (.apiError 401 "アクセストークンが必要です" none) :=
  ⟨rfl,
    ((authenticate_cases demoEnvAccess 3000 demoDb
      (some "Bearer u1.a@x.com.user.access")).1 _).mp rfl,
    rfl⟩

/-! ## `optionalAuthenticate` and `ownerOrAdmin` -/

/-- The result of `optionalAuthenticate` is the identity `authenticate` sets, if it sets
one, and no identity otherwise; it is never an error. -/
theorem optionalAuthenticate_eq (env : Env) (now : Nat) (db : Db)
    (authorization : Option String) :
    optionalAuthenticate env now db authorization =
      .ok (match authenticate env now db authorization with
           | .ok identity => some identity
           | .error _ => none) := by
  unfold optionalAuthenticate authenticate
  cases authorization with
  | none => rfl
  | some authHeader =>
    simp only
    by_cases hempty : authHeader = ""
    · simp only [hempty, if_true]
    · simp only [hempty, if_false]
      split
      · next _ scheme token _ =>
        by_cases hscheme : String.mk scheme = "Bearer"
        · simp only [hscheme, ne_eq, not_true_eq_false, if_false]
          cases hver : verifyToken env now (String.mk token) with
          | none => rfl
          | some decoded =>
            simp only
            by_cases htype : decoded.lookup "type" = some (.str "access")
            · simp only [htype, if_true, ne_eq, not_true_eq_false, if_false]
              cases hfind : User.findByClaimedId db decoded with
              | error e => rfl
              | ok found =>
                cases found with
                | none => rfl
                | some user => rfl
            · simp only [htype, if_false, ne_eq, not_false_eq_true, if_true]
        · simp only [hscheme, ne_eq, not_false_eq_true, if_true]
      · rfl

/-- Claim C21. `optionalAuthenticate` never passes an error to `next`; on every request and
state it sets an identity exactly when `authenticate` sets one, and the same one; and
whenever `authenticate` passes an error, it sets no identity and goes on. -/
theorem optionalAuthenticate_refines (env : Env) (now : Nat) (db : Db)
    (authorization : Option String) :
    (∃ result, optionalAuthenticate env now db authorization = .ok result)
    ∧ (∀ identity, optionalAuthenticate env now db authorization = .ok (some identity) ↔
        authenticate env now db authorization = .ok identity)
    ∧ (∀ e, authenticate env now db authorization = .error e →
        optionalAuthenticate env now db authorization = .ok none) := by
  rw [optionalAuthenticate_eq]
  refine ⟨⟨_, rfl⟩, ?_, ?_⟩
  · intro identity
    cases h : authenticate env now db authorization with
    | ok i => simp
    | error e => simp
  · intro e h
    rw [h]

/-- Witness of C21: in `demoDb` Ann's access token gives her identity through both, and
her refresh token, which `authenticate` refuses, gives none. -/
theorem optionalAuthenticate_refines_witness :
    optionalAuthenticate demoEnvAccess 3000 demoDb (some "Bearer u1.a@x.com.user.access")
      = .ok (some { id := "u1", email := "a@x.com", name := "Ann", role := "user" })
    ∧ authenticate demoEnvAccess 3000 demoDb (some "Bearer u1.refresh.j1")
      = .error (.apiError 401 "アクセストークンが必要です" none)
    ∧ optionalAuthenticate demoEnvAccess 3000 demoDb (some "Bearer u1.refresh.j1") = .ok none :=
  ⟨rfl, rfl,
    (optionalAuthenticate_refines demoEnvAccess 3000 demoDb (some "Bearer u1.refresh.j1")).2.2
      _ rfl⟩

/-- Claim C26 as stated fails: for an identity that is not an admin and a `getOwnerId`
that throws, here the `ApiError` of status 404, `ownerOrAdmin` neither lets the request
through nor yields 401 or 403: it passes the thrown error on. -/
theorem ownerOrAdmin_passes_thrown_error :
    ownerOrAdmin (.error (notFound "記事が見つかりません"))
        (some { id := "u1", email := "a@x.com", name := "Ann", role := "user" })
      = .error (.apiError 404 "記事が見つかりません" none) :=
  rfl

/-- Claim C26 as amended. `ownerOrAdmin` lets a request through exactly when it has an
identity and either the role of the identity is `admin`, whatever `getOwnerId` would do,
or `getOwnerId` resolves to the id of the identity. With no identity it yields the
`ApiError` of status 401; with an identity that is not an admin it yields the `ApiError` of
status 403 when `getOwnerId` resolves to another value, and the error `getOwnerId` throws
when it throws. -/
theorem ownerOrAdmin_cases (getOwnerId : Except JsError (Option JsVal))
    (user : Option Identity) :
    (ownerOrAdmin getOwnerId user = .ok () ↔
        ∃ u, user = some u ∧ (u.role = "admin" ∨ getOwnerId = .ok (some (.str u.id))))
    ∧ (∀ u other, user = some u → u.role = "admin" → ownerOrAdmin other user = .ok ())
    ∧ (user = none →
        ownerOrAdmin getOwnerId user = .error (.apiError 401 "認証が必要です" none))
    ∧ (∀ u ownerId, user = some u → u.role ≠ "admin" → getOwnerId = .ok ownerId →
        ownerId ≠ some (.str u.id) →
        ownerOrAdmin getOwnerId user =
          .error (.apiError 403 "この操作を行う権限がありません" none))
    ∧ (∀ u e, user = some u → u.role ≠ "admin" → getOwnerId = .error e →
        ownerOrAdmin getOwnerId user = .error e) := by
  refine ⟨?_, ?_, ?_, ?_, ?_⟩
  · cases user with
    | none => simp [ownerOrAdmin, unauthorized]
    | some u =>
      by_cases hadmin : u.role = "admin"
      · simp [ownerOrAdmin, hadmin]
      · cases getOwnerId with
        | error e => simp [ownerOrAdmin, hadmin]
        | ok ownerId =>
          by_cases hown : ownerId = some (.str u.id)
          · simp [ownerOrAdmin, hadmin, hown]
          · simp [ownerOrAdmin, hadmin, hown, forbidden]
  · intro u other hu hadmin
    simp [ownerOrAdmin, hu, hadmin]
  · intro hu
    simp [ownerOrAdmin, hu, unauthorized]
  · intro u ownerId hu hadmin hget hown
    simp [ownerOrAdmin, hu, hadmin, hget, hown, forbidden]
  · intro u e hu hadmin hget
    simp [ownerOrAdmin, hu, hadmin, hget]

/-- Witness of C26 as amended: Ann, who is not an admin, is refused a resource of `u2`. -/
theorem ownerOrAdmin_cases_witness :
    ownerOrAdmin (.ok (some (.str "u2")))
        (some { id := "u1", email := "a@x.com", name := "Ann", role := "user" })
      = .error (.apiError 403 "この操作を行う権限がありません" none) :=
  (ownerOrAdmin_cases (.ok (some (.str "u2")))
    (some { id := "u1", email := "a@x.com", name := "Ann", role := "user" })).2.2.2.1
    _ _ rfl (by decide) rfl (by decide)

/-! ## `errorHandler` -/

/-- Claim C27 as stated fails: an error that is no `ApiError` and has no `code`, under the
name `JsonWebTokenError`, is answered with status 401, not 500. -/
theorem errorHandler_jwt_error_is_401 :
    (errorHandler (.other "JsonWebTokenError" "jwt malformed" none)).status = 401
    ∧ (errorHandler (.other "TokenExpiredError" "jwt expired" none)).status = 401 :=
  ⟨rfl, rfl⟩

/-- Claim C27 as amended. `errorHandler` answers an `ApiError` with its own status code and
message, so 400, 401, 403, 404, 409 and 500 for the six factories; any other error named
`JsonWebTokenError` or `TokenExpiredError` with status 401 and a fixed message; any other
error with the code `SQLITE_CONSTRAINT_UNIQUE` with status 409 and a fixed message; and
every remaining error with status 500 and one fixed body, whatever the error's message. -/
theorem errorHandler_cases :
    (∀ statusCode message details,
        errorHandler (.apiError statusCode message details) =
          { status := statusCode, error := "ApiError", message := message, details := details })
    ∧ (∀ message details, (errorHandler (badRequest message details)).status = 400
        ∧ (errorHandler (badRequest message details)).message = message)
    ∧ (∀ message, (errorHandler (unauthorized message)).status = 401
        ∧ (errorHandler (unauthorized message)).message = message
        ∧ (errorHandler (forbidden message)).status = 403
        ∧ (errorHandler (forbidden message)).message = message
        ∧ (errorHandler (notFound message)).status = 404
        ∧ (errorHandler (notFound message)).message = message
        ∧ (errorHandler (conflict message)).status = 409
        ∧ (errorHandler (conflict message)).message = message
        ∧ (errorHandler (internalError message)).status = 500
        ∧ (errorHandler (internalError message)).message = message)
    ∧ (∀ message code, errorHandler (.other "JsonWebTokenError" message code) =
          { status := 401, error := "Unauthorized", message := "無効なトークンです",
            details := none })
    ∧ (∀ message code, errorHandler (.other "TokenExpiredError" message code) =
          { status := 401, error := "Unauthorized",
            message := "トークンの有効期限が切れています", details := none })
    ∧ (∀ name message, name ≠ "JsonWebTokenError" → name ≠ "TokenExpiredError" →
        errorHandler (.other name message (some "SQLITE_CONSTRAINT_UNIQUE")) =
          { status := 409, error := "Conflict", message := "データが既に存在します",
            details := none })
    ∧ (∀ name message code, name ≠ "JsonWebTokenError" → name ≠ "TokenExpiredError" →
        code ≠ some "SQLITE_CONSTRAINT_UNIQUE" →
        errorHandler (.other name message code) =
          { status := 500, error := "Internal Server Error",
            message := "サーバー内部エラーが発生しました", details := none }) := by
  refine ⟨fun _ _ _ => rfl, fun _ _ => ⟨rfl, rfl⟩,
    fun _ => ⟨rfl, rfl, rfl, rfl, rfl, rfl, rfl, rfl, rfl, rfl⟩, fun _ _ => rfl, fun _ _ => rfl,
    ?_, ?_⟩
  · intro name message h1 h2
    simp [errorHandler, h1, h2]
  · intro name message code h1 h2 h3
    simp [errorHandler, h1, h2, h3]

/-- Witness of C27 as amended: a `TypeError` is answered with the generic body, and the
`UNIQUE` violation of SQLite with status 409. -/
theorem errorHandler_cases_witness :
    errorHandler (typeError "Cannot read properties of null") =
        { status := 500, error := "Internal Server Error",
          message := "サーバー内部エラーが発生しました", details := none }
    ∧ errorHandler (sqliteError "SQLITE_CONSTRAINT_UNIQUE") =
        { status := 409, error := "Conflict", message := "データが既に存在します",
          details := none } :=
  ⟨errorHandler_cases.2.2.2.2.2.2 "TypeError" "Cannot read properties of null" none
      (by decide) (by decide) (by decide),
   errorHandler_cases.2.2.2.2.2.1 "SqliteError" "SQLITE_CONSTRAINT_UNIQUE"
      (by decide) (by decide)⟩

/-! ## The two checks of `refresh`, and the failures that change nothing -/

/-- A failed check of `refresh`: no valid record, or no verified claims of type
`refresh`. Then `refresh` throws the `ApiError` of status 401 and changes nothing. -/
theorem refresh_check_failed (env : Env) (now : Nat) (jti id : String) (db : Db) (t : String)
    (h : (¬ ∃ r, RefreshToken.findByToken db t = some r
              ∧ RefreshToken.isValid (some r) now = true)
         ∨ (¬ ∃ decoded, verifyToken env now t = some decoded
              ∧ decoded.lookup "type" = some (.str "refresh"))) :
    ∃ message, refresh env now jti id db t = (.error (.apiError 401 message none), db) := by
  unfold refresh
  cases hrec : RefreshToken.findByToken db t with
  | none => exact ⟨_, rfl⟩
  | some r =>
    simp only
    by_cases hvalid : RefreshToken.isValid (some r) now = true
    · simp only [hvalid, not_true_eq_false, if_false]
      cases hver : verifyToken env now t with
      | none => exact ⟨_, rfl⟩
      | some decoded =>
        simp only
        by_cases htype : decoded.lookup "type" = some (.str "refresh")
        · exfalso
          rcases h with h | h
          · exact h ⟨r, hrec, hvalid⟩
          · exact h ⟨decoded, hver, htype⟩
        · simp only [ne_eq, htype, not_false_eq_true, if_true]
          exact ⟨_, rfl⟩
    · simp only [hvalid, not_false_eq_true, if_true]
      exact ⟨_, rfl⟩

/-- Claim C25. `refresh(t)` succeeds only if both checks pass: `findByToken` returns a
record, whose token is `t`, that is valid, and `verifyToken(t)` returns claims whose `type`
is `refresh`. If one of them fails, also for a stored and valid record whose token does
not verify or verifies with another `type`, `refresh` throws the `ApiError` of status 401
and changes nothing. -/
theorem refresh_requires_both_checks (env : Env) (now : Nat) (jti id : String) (db : Db)
    (t : String) :
    (∀ tokens db1, refresh env now jti id db t = (.ok tokens, db1) →
        (∃ r, RefreshToken.findByToken db t = some r ∧ r.token = t
            ∧ RefreshToken.isValid (some r) now = true)
        ∧ ∃ decoded, verifyToken env now t = some decoded
            ∧ decoded.lookup "type" = some (.str "refresh"))
    ∧ ((¬ ∃ r, RefreshToken.findByToken db t = some r
              ∧ RefreshToken.isValid (some r) now = true) →
        ∃ message, refresh env now jti id db t = (.error (.apiError 401 message none), db))
    ∧ ((¬ ∃ decoded, verifyToken env now t = some decoded
              ∧ decoded.lookup "type" = some (.str "refresh")) →
        ∃ message, refresh env now jti id db t = (.error (.apiError 401 message none), db)) := by
  refine ⟨?_, fun h => refresh_check_failed env now jti id db t (Or.inl h),
    fun h => refresh_check_failed env now jti id db t (Or.inr h)⟩
  intro tokens db1 h
  obtain ⟨r, decoded, _, hrec, hvalid, hver, htype, _, _⟩ :=
    refresh_ok env now jti id db db1 t tokens h
  refine ⟨⟨r, hrec, ?_, hvalid⟩, decoded, hver, htype⟩
  unfold RefreshToken.findByToken at hrec
  simpa using List.find?_some hrec

/-- Witness of C25: Ann's record in `demoDb` is valid at time 1000, and in the world that
rejects every token `refresh` of her token fails. -/
theorem refresh_requires_both_checks_witness :
    RefreshToken.isValid (RefreshToken.findByToken demoDb "u1.refresh.j1") 1000 = true
    ∧ ∃ message, refresh demoEnvRejecting 1000 "j2" "r2" demoDb "u1.refresh.j1" =
        (.error (.apiError 401 message none), demoDb) :=
  ⟨rfl, (refresh_requires_both_checks demoEnvRejecting 1000 "j2" "r2" demoDb
      "u1.refresh.j1").2.2 (by
        rintro ⟨decoded, hver, _⟩
        exact absurd hver (by simp [verifyToken, demoEnvRejecting]))⟩

/-- The errors of `RefreshToken.create` are errors of SQLite, not `ApiError`s. -/
theorem refreshToken_create_error_kind (db db1 : Db) (now : Nat) (id : String)
    (td : TokenData) (e : JsError) (h : RefreshToken.create db now id td = (.error e, db1)) :
    ∃ code, e = sqliteError code := by
  unfold RefreshToken.create at h
  split_ifs at h
  all_goals first
    | (simp only [Prod.mk.injEq, Except.error.injEq] at h
       exact ⟨_, h.1.symm⟩)
    | simp at h

/-- An error out of lines 155-186 of `refresh` is an error of `jwt.sign` or of SQLite. -/
theorem refreshRotate_error_kind (env : Env) (now : Nat) (jti id : String) (db db2 : Db)
    (user : User) (t : String) (e : JsError)
    (h : refreshRotate env now jti id db user t = (.error e, db2)) :
    (∃ payload secret expiresIn, env.jwtSign payload secret expiresIn now = .error e)
    ∨ ∃ code, e = sqliteError code := by
  unfold refreshRotate at h
  simp only at h
  split at h
  · next e1 he1 =>
    simp only [Prod.mk.injEq, Except.error.injEq] at h
    rw [← h.1]
    exact Or.inl ⟨_, _, _, he1⟩
  · split at h
    · next e1 he1 =>
      simp only [Prod.mk.injEq, Except.error.injEq] at h
      rw [← h.1]
      exact Or.inl ⟨_, _, _, he1⟩
    · split at h
      · next e1 db3 hc =>
        simp only [Prod.mk.injEq, Except.error.injEq] at h
        rw [← h.1]
        exact Or.inr (refreshToken_create_error_kind _ _ _ _ _ _ hc)
      · simp at h

/-- An error out of `login` is its `ApiError` of status 401, thrown before any write, or an
error of `jwt.sign` or of SQLite. -/
theorem login_error_kind (env : Env) (now : Nat) (jti id : String) (db db1 : Db)
    (c : Credentials) (e : JsError) (h : login env now jti id db c = (.error e, db1)) :
    ((∃ message, e = .apiError 401 message none) ∧ db1 = db)
    ∨ (∃ payload secret expiresIn, env.jwtSign payload secret expiresIn now = .error e)
    ∨ ∃ code, e = sqliteError code := by
  unfold login at h
  cases huser : User.findByEmail db c.email with
  | none =>
    simp only [huser, Prod.mk.injEq, Except.error.injEq] at h
    exact Or.inl ⟨⟨_, h.1.symm⟩, h.2.symm⟩
  | some user =>
    simp only [huser] at h
    by_cases hpw : verifyPassword env c.password user.password = true
    · simp only [hpw, not_true_eq_false, if_false] at h
      split at h
      · next e1 he1 =>
        simp only [Prod.mk.injEq, Except.error.injEq] at h
        rw [← h.1]
        exact Or.inr (Or.inl ⟨_, _, _, he1⟩)
      · split at h
        · next e1 he1 =>
          simp only [Prod.mk.injEq, Except.error.injEq] at h
          rw [← h.1]
          exact Or.inr (Or.inl ⟨_, _, _, he1⟩)
        · split at h
          · next e1 db3 hc =>
            simp only [Prod.mk.injEq, Except.error.injEq] at h
            rw [← h.1]
            exact Or.inr (Or.inr (refreshToken_create_error_kind _ _ _ _ _ _ hc))
          · simp at h
    · simp only [hpw, Bool.false_eq_true, not_false_eq_true, if_true, Prod.mk.injEq,
        Except.error.injEq] at h
      exact Or.inl ⟨⟨_, h.1.symm⟩, h.2.symm⟩

/-- An error out of `refresh` is one of its `ApiError`s of status 401, thrown before any
write, or an error out of lines 155-186. -/
theorem refresh_error_kind (env : Env) (now : Nat) (jti id : String) (db db1 : Db)
    (t : String) (e : JsError) (h : refresh env now jti id db t = (.error e, db1)) :
    ((∃ message, e = .apiError 401 message none) ∧ db1 = db)
    ∨ ∃ user, refreshRotate env now jti id db user t = (.error e, db1) := by
  unfold refresh at h
  cases hrec : RefreshToken.findByToken db t with
  | none =>
    simp only [hrec, Prod.mk.injEq, Except.error.injEq] at h
    exact Or.inl ⟨⟨_, h.1.symm⟩, h.2.symm⟩
  | some r =>
    simp only [hrec] at h
    by_cases hvalid : RefreshToken.isValid (some r) now = true
    · simp only [hvalid, not_true_eq_false, if_false] at h
      cases hver : verifyToken env now t with
      | none =>
        simp only [hver, Prod.mk.injEq, Except.error.injEq] at h
        exact Or.inl ⟨⟨_, h.1.symm⟩, h.2.symm⟩
      | some decoded =>
        simp only [hver] at h
        by_cases htype : decoded.lookup "type" = some (.str "refresh")
        · simp only [htype, ne_eq, not_true_eq_false, if_false] at h
          cases huser : User.findById db r.userId with
          | none =>
            simp only [huser, Prod.mk.injEq, Except.error.injEq] at h
            exact Or.inl ⟨⟨_, h.1.symm⟩, h.2.symm⟩
          | some user =>
            simp only [huser] at h
            exact Or.inr ⟨user, h⟩
        · simp only [htype, ne_eq, not_false_eq_true, if_true, Prod.mk.injEq,
            Except.error.injEq] at h
          exact Or.inl ⟨⟨_, h.1.symm⟩, h.2.symm⟩
    · simp only [hvalid, Bool.false_eq_true, not_false_eq_true, if_true, Prod.mk.injEq,
        Except.error.injEq] at h
      exact Or.inl ⟨⟨_, h.1.symm⟩, h.2.symm⟩

/-- An error out of `register` is its `ApiError` of status 409, thrown before any write, or
no `ApiError` at all. -/
theorem register_error_kind (env : Env) (now : Nat) (salt id : String) (db db1 : Db)
    (userData : RegisterData) (e : JsError)
    (h : register env now salt id db userData = (.error e, db1)) :
    ((∃ message, e = .apiError 409 message none) ∧ db1 = db)
    ∨ ∃ name message code, e = .other name message code := by
  unfold register at h
  by_cases hex : User.emailExists db userData.email = true
  · simp only [hex, if_true, Prod.mk.injEq, Except.error.injEq] at h
    exact Or.inl ⟨⟨_, h.1.symm⟩, h.2.symm⟩
  · simp only [hex, Bool.false_eq_true, if_false] at h
    split at h
    · next e1 db2 hc =>
      simp only [Prod.mk.injEq, Except.error.injEq] at h
      rw [← h.1]
      unfold User.create at hc
      simp only at hc
      split_ifs at hc
      all_goals first
        | (simp only [Prod.mk.injEq, Except.error.injEq] at hc
           exact Or.inr ⟨_, _, _, hc.1.symm⟩)
        | simp at hc
    · simp only [Prod.mk.injEq, Except.error.injEq] at h
      exact Or.inr ⟨_, _, _, h.1.symm⟩
    · simp at h

/-- Claim C29. With a `jwt.sign` that throws no `ApiError` (the class is the
application's): whenever `register` fails with the `ApiError` of status 409, `login` with
the one of status 401 or `refresh` with the one of status 401, the state after the call,
accounts and refresh-token records with their `revoked` flags, is the state before it. -/
theorem business_failures_atomic (env : Env)
    (hsign : ∀ payload secret expiresIn now statusCode message details,
      env.jwtSign payload secret expiresIn now ≠ .error (.apiError statusCode message details)) :
    (∀ now salt id db userData message details db1,
        register env now salt id db userData = (.error (.apiError 409 message details), db1) →
        db1 = db)
    ∧ (∀ now jti id db credentials message details db1,
        login env now jti id db credentials = (.error (.apiError 401 message details), db1) →
        db1 = db)
    ∧ (∀ now jti id db t message details db1,
        refresh env now jti id db t = (.error (.apiError 401 message details), db1) →
        db1 = db) := by
  refine ⟨?_, ?_, ?_⟩
  · intro now salt id db userData message details db1 h
    rcases register_error_kind env now salt id db db1 userData _ h with ⟨_, hdb⟩ | ⟨_, _, _, he⟩
    · exact hdb
    · simp at he
  · intro now jti id db c message details db1 h
    rcases login_error_kind env now jti id db db1 c _ h with
      ⟨_, hdb⟩ | ⟨p, s, x, he⟩ | ⟨code, he⟩
    · exact hdb
    · exact absurd he (hsign _ _ _ _ _ _ _)
    · simp [sqliteError] at he
  · intro now jti id db t message details db1 h
    rcases refresh_error_kind env now jti id db db1 t _ h with ⟨_, hdb⟩ | ⟨user, hrot⟩
    · exact hdb
    · rcases refreshRotate_error_kind env now jti id db db1 user t _ hrot with
        ⟨p, s, x, he⟩ | ⟨code, he⟩
      · exact absurd he (hsign _ _ _ _ _ _ _)
      · simp [sqliteError] at he

/-- Witness of C29: in `demoDb1` the `refresh` of Ann's revoked token fails with status 401
and leaves `demoDb1`. -/
theorem business_failures_atomic_witness :
    refresh demoEnv 2000 "j3" "r3" demoDb1 "u1.refresh.j1" =
        (.error (.apiError 401 "リフレッシュトークンが無効または期限切れです" none), demoDb1)
    ∧ (refresh demoEnv 2000 "j3" "r3" demoDb1 "u1.refresh.j1").2 = demoDb1 :=
  ⟨rfl, (business_failures_atomic demoEnv (by intros; simp [demoEnv])).2.2
      2000 "j3" "r3" demoDb1 "u1.refresh.j1" _ _ _ rfl⟩

/-- Claim C30. What `logout(token, userId)` returns and the state it leaves do not depend
on `userId`; so the record of the token is revoked also when its owner is another account
than `userId`. -/
theorem logout_ignores_caller (db : Db) (t userId1 userId2 : String) :
    logout db t userId1 = logout db t userId2
    ∧ ∀ r, RefreshToken.findByToken db t = some r → r.userId ≠ userId1 →
        RefreshToken.findByToken (logout db t userId1).2 t = some { r with revoked := true } := by
  refine ⟨rfl, ?_⟩
  intro r hrec _
  rcases findByToken_after_revoke db t with ⟨r1, h1, h2⟩ | ⟨h1, _⟩
  · rw [hrec] at h1
    simp only [Option.some.injEq] at h1
    subst h1
    exact h2
  · rw [hrec] at h1
    simp at h1

/-- Witness of C30: Bob logs Ann's token out of `demoDbTwo`. -/
theorem logout_ignores_caller_witness :
    RefreshToken.findByToken (logout demoDbTwo "u1.refresh.j1" "u2").2 "u1.refresh.j1" =
      some { id := "r1", userId := "u1", token := "u1.refresh.j1", expiresAt := 604800000,
             revoked := true, createdAt := 0 } :=
  (logout_ignores_caller demoDbTwo "u1.refresh.j1" "u2" "u1").2
    { id := "r1", userId := "u1", token := "u1.refresh.j1", expiresAt := 604800000,
      revoked := false, createdAt := 0 } rfl (by decide)

/-! ## `getAccessTokenExpiresInSeconds` -/

/-- The pattern `/^(\d+)([smhd])$/` matches a text of one or more ASCII digits followed by
one of the four unit letters, with these two groups. -/
theorem matchDuration_digits_unit (digits : List Char) (unit : Char) (hne : digits ≠ [])
    (hdigits : ∀ c ∈ digits, '0' ≤ c ∧ c ≤ '9')
    (hunit : unit = 's' ∨ unit = 'm' ∨ unit = 'h' ∨ unit = 'd') :
    matchDuration (String.mk (digits ++ [unit])) = some (digits, unit) := by
  unfold matchDuration
  have hrev : (String.mk (digits ++ [unit])).toList.reverse = unit :: digits.reverse := by
    simp [String.toList]
  rw [hrev]
  have hall : (digits.all fun c => decide ('0' ≤ c ∧ c ≤ '9')) = true := by
    rw [List.all_eq_true]
    intro c hc
    exact decide_eq_true (hdigits c hc)
  simp only [List.reverse_reverse]
  rw [if_pos ⟨hunit, hne, hall⟩]

/-- The pattern matches no other text. -/
theorem matchDuration_some (s : String) (digits : List Char) (unit : Char)
    (h : matchDuration s = some (digits, unit)) :
    s.toList = digits ++ [unit] ∧ digits ≠ [] ∧ (∀ c ∈ digits, '0' ≤ c ∧ c ≤ '9')
      ∧ (unit = 's' ∨ unit = 'm' ∨ unit = 'h' ∨ unit = 'd') := by
  unfold matchDuration at h
  split at h
  · simp at h
  · next u rest hrev =>
    simp only at h
    split_ifs at h with hc
    simp only [Option.some.injEq, Prod.mk.injEq] at h
    obtain ⟨hd, hu⟩ := h
    subst hd hu
    obtain ⟨h1, h2, h3⟩ := hc
    refine ⟨?_, h2, ?_, h1⟩
    · have := congrArg List.reverse hrev
      simpa using this
    · intro c hc
      rw [List.all_eq_true] at h3
      exact of_decide_eq_true (h3 c hc)

/-- Claim C28 as stated fails: the settings `0s` and `0` are a text of digits with a unit
and a number, and the result for them is 0, which is not positive. -/
theorem getAccessTokenExpiresInSeconds_zero :
    getAccessTokenExpiresInSeconds (demoEnvExpires (.str "0s")) = 0
    ∧ getAccessTokenExpiresInSeconds (demoEnvExpires (.num 0)) = 0 :=
  ⟨rfl, rfl⟩

/-- Claim C28 as amended. `getAccessTokenExpiresInSeconds` returns a numeric setting `n` as
`n`; for a text of one or more decimal digits, of value `n`, followed by one unit `s`, `m`,
`h` or `d` it returns `n`, `60 n`, `3600 n` or `86400 n`, as long as that number is below
`2 ^ 53`, so 3600 for the default `1h`; for any other text it returns 3600. The result is
positive whenever the numeric setting, or the value of the digits, is positive. -/
theorem getAccessTokenExpiresInSeconds_cases (env : Env) :
    (∀ n, env.jwt.accessExpiresIn = .num n → getAccessTokenExpiresInSeconds env = n)
    ∧ (∀ digits unit, env.jwt.accessExpiresIn = .str (String.mk (digits ++ [unit])) →
        digits ≠ [] → (∀ c ∈ digits, '0' ≤ c ∧ c ≤ '9') →
        (unit = 's' → parseDigits digits < 2 ^ 53 →
          getAccessTokenExpiresInSeconds env = parseDigits digits)
        ∧ (unit = 'm' → 60 * parseDigits digits < 2 ^ 53 →
          getAccessTokenExpiresInSeconds env = 60 * parseDigits digits)
        ∧ (unit = 'h' → 3600 * parseDigits digits < 2 ^ 53 →
          getAccessTokenExpiresInSeconds env = 3600 * parseDigits digits)
        ∧ (unit = 'd' → 86400 * parseDigits digits < 2 ^ 53 →
          getAccessTokenExpiresInSeconds env = 86400 * parseDigits digits))
    ∧ (env.jwt.accessExpiresIn = .str "1h" → getAccessTokenExpiresInSeconds env = 3600)
    ∧ (∀ s, env.jwt.accessExpiresIn = .str s →
        (¬ ∃ digits unit, s.toList = digits ++ [unit] ∧ digits ≠ []
            ∧ (∀ c ∈ digits, '0' ≤ c ∧ c ≤ '9')
            ∧ (unit = 's' ∨ unit = 'm' ∨ unit = 'h' ∨ unit = 'd')) →
        getAccessTokenExpiresInSeconds env = 3600)
    ∧ ((∀ n, env.jwt.accessExpiresIn = .num n → 0 < n) →
        (∀ digits unit, env.jwt.accessExpiresIn = .str (String.mk (digits ++ [unit])) →
          digits ≠ [] → (∀ c ∈ digits, '0' ≤ c ∧ c ≤ '9') →
          (unit = 's' ∨ unit = 'm' ∨ unit = 'h' ∨ unit = 'd') → 0 < parseDigits digits) →
        0 < getAccessTokenExpiresInSeconds env) := by
  have hunits : ∀ digits unit, env.jwt.accessExpiresIn = .str (String.mk (digits ++ [unit])) →
      digits ≠ [] → (∀ c ∈ digits, '0' ≤ c ∧ c ≤ '9') →
      (unit = 's' → getAccessTokenExpiresInSeconds env = parseDigits digits)
      ∧ (unit = 'm' → getAccessTokenExpiresInSeconds env = 60 * parseDigits digits)
      ∧ (unit = 'h' → getAccessTokenExpiresInSeconds env = 3600 * parseDigits digits)
      ∧ (unit = 'd' → getAccessTokenExpiresInSeconds env = 86400 * parseDigits digits) := by
    intro digits unit hcfg hne hdigits
    refine ⟨?_, ?_, ?_, ?_⟩
    all_goals
      intro hu
      unfold getAccessTokenExpiresInSeconds
      rw [hcfg]
      simp only
      rw [matchDuration_digits_unit digits unit hne hdigits (by simp [hu])]
      subst hu
      simp only [Char.reduceEq, if_true, if_false]
      try omega
  have hother : ∀ s, env.jwt.accessExpiresIn = .str s →
      (¬ ∃ digits unit, s.toList = digits ++ [unit] ∧ digits ≠ []
          ∧ (∀ c ∈ digits, '0' ≤ c ∧ c ≤ '9')
          ∧ (unit = 's' ∨ unit = 'm' ∨ unit = 'h' ∨ unit = 'd')) →
      getAccessTokenExpiresInSeconds env = 3600 := by
    intro s hcfg hno
    unfold getAccessTokenExpiresInSeconds
    rw [hcfg]
    simp only
    cases hm : matchDuration s with
    | none => rfl
    | some p =>
      obtain ⟨digits, unit⟩ := p
      exact absurd ⟨digits, unit, matchDuration_some s digits unit hm⟩ hno
  refine ⟨?_, ?_, ?_, hother, ?_⟩
  · intro n hcfg
    unfold getAccessTokenExpiresInSeconds
    rw [hcfg]
  · intro digits unit hcfg hne hdigits
    obtain ⟨h1, h2, h3, h4⟩ := hunits digits unit hcfg hne hdigits
    exact ⟨fun hu _ => h1 hu, fun hu _ => h2 hu, fun hu _ => h3 hu, fun hu _ => h4 hu⟩
  · intro hcfg
    unfold getAccessTokenExpiresInSeconds
    rw [hcfg]
    rfl
  · intro hnum hstr
    cases hcfg : env.jwt.accessExpiresIn with
    | num n =>
      have hres : getAccessTokenExpiresInSeconds env = n := by
        unfold getAccessTokenExpiresInSeconds
        rw [hcfg]
      rw [hres]
      exact hnum n hcfg
    | str s =>
      cases hm : matchDuration s with
      | none =>
        have hres : getAccessTokenExpiresInSeconds env = 3600 := by
          unfold getAccessTokenExpiresInSeconds
          rw [hcfg]
          simp only [hm]
        rw [hres]
        decide
      | some p =>
        obtain ⟨digits, unit⟩ := p
        obtain ⟨hs, hne, hdigits, hunit⟩ := matchDuration_some s digits unit hm
        have hs1 : s = String.mk (digits ++ [unit]) := String.ext hs
        have hpos := hstr digits unit (by rw [hcfg, hs1]) hne hdigits hunit
        obtain ⟨h1, h2, h3, h4⟩ := hunits digits unit (by rw [hcfg, hs1]) hne hdigits
        rcases hunit with hu | hu | hu | hu
        · rw [h1 hu]
          exact hpos
        · rw [h2 hu]
          omega
        · rw [h3 hu]
          omega
        · rw [h4 hu]
          omega

/-- Witness of C28 as amended: the settings `15m` and `2d`, whose seconds are below
`2 ^ 53`, and `2 days`, which the pattern does not match. -/
theorem getAccessTokenExpiresInSeconds_cases_witness :
    60 * parseDigits ['1', '5'] < 2 ^ 53
    ∧ getAccessTokenExpiresInSeconds (demoEnvExpires (.str "15m")) = 60 * 15
    ∧ 86400 * parseDigits ['2'] < 2 ^ 53
    ∧ getAccessTokenExpiresInSeconds (demoEnvExpires (.str "2d")) = 86400 * 2
    ∧ getAccessTokenExpiresInSeconds (demoEnvExpires (.str "2 days")) = 3600 :=
  ⟨by decide,
   ((getAccessTokenExpiresInSeconds_cases (demoEnvExpires (.str "15m"))).2.1
      ['1', '5'] 'm' rfl (by decide) (by decide)).2.1 rfl (by decide),
   by decide,
   ((getAccessTokenExpiresInSeconds_cases (demoEnvExpires (.str "2d"))).2.1
      ['2'] 'd' rfl (by decide) (by decide)).2.2.2 rfl (by decide),
   rfl⟩

/-! ## The toy codec keeps the contract of `jsonwebtoken` -/

/-- Reading back a text. -/
theorem decText_escText (s rest : List Char) : decText (escText s ++ rest) = some (s, rest) := by
  induction s with
  | nil => simp [escText, decText]
  | cons c cs ih =>
    by_cases hdot : c = '.'
    · subst hdot
      simp [escText, decText, ih]
    · by_cases htilde : c = '~'
      · subst htilde
        simp [escText, decText, ih]
      · simp only [escText, hdot, htilde, if_false, List.cons_append]
        rw [decText.eq_def]
        simp only [htilde, hdot, if_false, ih, Option.map_some']

/-- A written text has no dot. -/
theorem escText_no_dot (s : List Char) : '.' ∉ escText s := by
  induction s with
  | nil => simp [escText]
  | cons c cs ih =>
    by_cases hdot : c = '.'
    · subst hdot
      simp [escText, ih]
    · by_cases htilde : c = '~'
      · subst htilde
        simp [escText, ih]
      · simp [escText, hdot, htilde, ih, Ne.symm hdot]

/-- Reading back a number. -/
theorem bitsNat_natBits (fuel n : Nat) (h : n ≤ fuel) : bitsNat (natBits fuel n) = n := by
  induction fuel generalizing n with
  | zero =>
    have : n = 0 := Nat.le_zero.mp h
    subst this
    rfl
  | succ fuel ih =>
    by_cases hn : n = 0
    · subst hn
      rfl
    · have hhalf : n / 2 ≤ fuel := by omega
      by_cases hodd : n % 2 = 1
      · simp only [natBits, hn, if_false, hodd, if_true, bitsNat, ih _ hhalf]
        omega
      · simp only [natBits, hn, if_false, hodd, bitsNat, ih _ hhalf]
        simp only [Char.reduceEq, if_false]
        omega

/-- Reading back a value. -/
theorem decVal_encVal (v : JsVal) (rest : List Char) :
    decVal (encVal v ++ rest) = some (v, rest) := by
  cases v with
  | str s => simp [encVal, decVal, decText_escText]
  | num n => simp [encVal, decVal, decText_escText, bitsNat_natBits]
  | bool b => cases b <;> simp [encVal, decVal]

/-- A written value has no dot. -/
theorem encVal_no_dot (v : JsVal) : '.' ∉ encVal v := by
  cases v with
  | str s => simp [encVal, escText_no_dot]
  | num n => simp [encVal, escText_no_dot]
  | bool b => cases b <;> simp [encVal]

/-- Reading back an object, with a bound above its number of properties. -/
theorem decObject_encObject (p : JsObject) (fuel : Nat) (h : p.length < fuel) :
    decObject fuel (encObject p) = some p := by
  induction p generalizing fuel with
  | nil =>
    cases fuel with
    | zero => simp at h
    | succ fuel => simp [encObject, decObject]
  | cons kv rest ih =>
    obtain ⟨k, v⟩ := kv
    cases fuel with
    | zero => simp at h
    | succ fuel =>
      have hrest : rest.length < fuel := by simpa using h
      simp only [encObject, decObject, Char.reduceEq, if_false, if_true, List.append_assoc,
        decText_escText, decVal_encVal, ih fuel hrest, Option.map_some']
      rfl

/-- A written object has no dot. -/
theorem encObject_no_dot (p : JsObject) : '.' ∉ encObject p := by
  induction p with
  | nil => simp [encObject]
  | cons kv rest ih =>
    obtain ⟨k, v⟩ := kv
    simp [encObject, escText_no_dot, encVal_no_dot, ih]

/-- A written object is longer than its number of properties. -/
theorem encObject_length (p : JsObject) : p.length < (encObject p).length := by
  induction p with
  | nil => simp [encObject]
  | cons kv rest ih =>
    obtain ⟨k, v⟩ := kv
    simp only [encObject, List.length_cons, List.length_append]
    omega

/-- A split in three parts: the text is the three parts with one separator between them,
and no part has a separator. -/
theorem splitChar_three (sep : Char) (cs a b c : List Char)
    (h : splitChar sep cs = [a, b, c]) :
    cs = a ++ sep :: (b ++ sep :: c) ∧ sep ∉ a ∧ sep ∉ b ∧ sep ∉ c := by
  induction cs generalizing a with
  | nil => simp [splitChar] at h
  | cons x cs ih =>
    rw [splitChar_cons] at h
    split_ifs at h with hx
    · simp only [List.cons.injEq] at h
      obtain ⟨ha, hrest⟩ := h
      subst ha
      obtain ⟨h1, h2, h3⟩ := splitChar_two sep cs b c hrest
      subst hx
      exact ⟨by rw [h1]; rfl, by simp, h2, h3⟩
    · split at h
      · next hnil => exact absurd hnil (splitChar_ne_nil sep cs)
      · next part parts hparts =>
        simp only [List.cons.injEq] at h
        obtain ⟨ha, hp⟩ := h
        subst ha hp
        obtain ⟨h1, h2, h3, h4⟩ := ih part hparts
        refine ⟨by rw [h1]; rfl, ?_, h3, h4⟩
        simp only [List.mem_cons, not_or]
        exact ⟨fun h => hx h.symm, h2⟩

/-- Three parts without separator, joined by the separator, split in these parts. -/
theorem splitChar_join_three (sep : Char) (a b c : List Char) (ha : sep ∉ a) (hb : sep ∉ b)
    (hc : sep ∉ c) : splitChar sep (a ++ sep :: (b ++ sep :: c)) = [a, b, c] := by
  rw [splitChar_append sep a _ ha, splitChar_append sep b _ hb, splitChar_of_not_mem sep c hc]

/-- The parts of a token that `codecParse` accepts. -/
theorem codecParse_some (token : String) (body signature : List Char)
    (h : codecParse token = some (body, signature)) :
    token.toList = 'J' :: '.' :: (body ++ '.' :: signature) := by
  unfold codecParse at h
  split at h
  · next header b s hsplit =>
    split_ifs at h with hh
    simp only [Option.some.injEq, Prod.mk.injEq] at h
    obtain ⟨hb, hs⟩ := h
    subst hb hs hh
    exact (splitChar_three '.' _ _ _ _ hsplit).1
  · simp at h

/-- The parts `codecParse` finds in a token of `codecToken`. -/
theorem codecParse_token (secret : String) (claims : JsObject) :
    codecParse (String.mk (codecToken secret claims)) =
      some (encObject claims, escText secret.toList ++ encObject claims) := by
  have hsplit : splitChar '.' (String.mk (codecToken secret claims)).toList =
      [['J'], encObject claims, escText secret.toList ++ encObject claims] :=
    splitChar_join_three '.' ['J'] _ _ (by decide) (encObject_no_dot claims)
      (by simp [escText_no_dot, encObject_no_dot])
  unfold codecParse
  rw [hsplit]
  rfl

/-- Two texts that hold a part twice, in the same places and of the same length, and differ
in one character only, hold the same part. -/
theorem doubled_part_eq (p m b1 b2 before after : List Char) (c d : Char)
    (hlen : b1.length = b2.length)
    (h1 : p ++ (b1 ++ (m ++ b1)) = before ++ c :: after)
    (h2 : p ++ (b2 ++ (m ++ b2)) = before ++ d :: after) : b1 = b2 := by
  by_cases hcase : p.length + b1.length ≤ before.length
  · have e1 := congrArg (List.take (p.length + b1.length)) h1
    have e2 := congrArg (List.take (p.length + b1.length)) h2
    rw [List.take_append_of_le_length hcase] at e1 e2
    have t1 : List.take (p.length + b1.length) (p ++ (b1 ++ (m ++ b1))) = p ++ b1 := by
      have hs : p ++ (b1 ++ (m ++ b1)) = (p ++ b1) ++ (m ++ b1) := by simp
      have hl : p.length + b1.length = (p ++ b1).length := by simp
      rw [hs, hl, List.take_left]
    have t2 : List.take (p.length + b1.length) (p ++ (b2 ++ (m ++ b2))) = p ++ b2 := by
      have hs : p ++ (b2 ++ (m ++ b2)) = (p ++ b2) ++ (m ++ b2) := by simp
      have hl : p.length + b1.length = (p ++ b2).length := by simp [hlen]
      rw [hs, hl, List.take_left]
    rw [t1] at e1
    rw [t2] at e2
    exact List.append_cancel_left (e1.trans e2.symm)
  · have e1 := congrArg (List.drop (p.length + b1.length + m.length)) h1
    have e2 := congrArg (List.drop (p.length + b1.length + m.length)) h2
    have hk : p.length + b1.length + m.length
        = (before ++ [c]).length + (p.length + b1.length + m.length - before.length - 1) := by
      simp
      omega
    have hk2 : p.length + b1.length + m.length
        = (before ++ [d]).length + (p.length + b1.length + m.length - before.length - 1) := by
      simp
      omega
    have l1 : List.drop (p.length + b1.length + m.length) (p ++ (b1 ++ (m ++ b1))) = b1 := by
      have : p ++ (b1 ++ (m ++ b1)) = (p ++ b1 ++ m) ++ b1 := by simp
      rw [this]
      have hl : p.length + b1.length + m.length = (p ++ b1 ++ m).length := by
        simp [Nat.add_assoc]
      rw [hl, List.drop_left]
    have l2 : List.drop (p.length + b1.length + m.length) (p ++ (b2 ++ (m ++ b2))) = b2 := by
      have : p ++ (b2 ++ (m ++ b2)) = (p ++ b2 ++ m) ++ b2 := by simp
      rw [this]
      have hl : p.length + b1.length + m.length = (p ++ b2 ++ m).length := by
        simp [hlen, Nat.add_assoc]
      rw [hl, List.drop_left]
    have r1 : before ++ c :: after = (before ++ [c]) ++ after := by simp
    have r2 : before ++ d :: after = (before ++ [d]) ++ after := by simp
    rw [l1, r1] at e1
    rw [l2, r2] at e2
    rw [hk, List.drop_append] at e1
    rw [hk2, List.drop_append] at e2
    exact e1.trans e2.symm

/-- A property that the first list lacks is looked up in the second. -/
theorem lookup_append_of_none (k : String) (l1 l2 : JsObject) (h : l1.lookup k = none) :
    (l1 ++ l2).lookup k = l2.lookup k := by
  induction l1 with
  | nil => rfl
  | cons kv rest ih =>
    obtain ⟨k1, v1⟩ := kv
    by_cases hk : (k == k1) = true
    · simp [List.lookup, hk] at h
    · have hk1 : (k == k1) = false := Bool.eq_false_iff.mpr hk
      simp only [List.lookup, hk1] at h
      simp only [List.cons_append, List.lookup, hk1]
      exact ih h

/-- What `codecSign` returns when it returns: the token of the payload with `iat` and `exp`,
the payload having neither. -/
theorem codecSign_ok (payload : JsObject) (secret : String) (expiresIn : ExpiresIn)
    (now : Nat) (token : String) (h : codecSign payload secret expiresIn now = .ok token) :
    ∃ span, payload.lookup "exp" = none
      ∧ token = String.mk (codecToken secret
          (payload ++ [("iat", .num (now / 1000)), ("exp", .num (now / 1000 + span))])) := by
  unfold codecSign at h
  split_ifs at h with hc
  cases hs : codecSpan expiresIn with
  | none => simp [hs] at h
  | some span =>
    simp only [hs, Except.ok.injEq] at h
    refine ⟨span, ?_, h.symm⟩
    by_contra hne
    exact hc (Or.inr hne)

/-- The toy codec returns what it issued. -/
theorem codecEnv_returnsIssued : JwtReturnsIssued codecEnv := by
  intro payload secret expiresIn now token hsign
  obtain ⟨span, hexp, htoken⟩ := codecSign_ok payload secret expiresIn now token hsign
  have hdec : decObject
      (encObject (payload ++ [("iat", .num (now / 1000)), ("exp", .num (now / 1000 + span))])).length
      (encObject (payload ++ [("iat", .num (now / 1000)), ("exp", .num (now / 1000 + span))]))
      = some (payload ++ [("iat", .num (now / 1000)), ("exp", .num (now / 1000 + span))]) :=
    decObject_encObject _ _ (encObject_length _)
  have hlook : (payload ++ [("iat", JsVal.num (now / 1000)),
      ("exp", JsVal.num (now / 1000 + span))]).lookup "exp" = some (.num (now / 1000 + span)) := by
    rw [lookup_append_of_none "exp" payload _ hexp]
    rfl
  refine ⟨now / 1000 + span, Nat.le_add_right _ _, ?_, ?_⟩
  · show codecDecode token = _
    unfold codecDecode
    rw [htoken, codecParse_token]
    exact hdec
  · intro now2 hnow2
    show codecVerify token secret now2 = _
    unfold codecVerify
    rw [htoken, codecParse_token]
    simp only [ne_eq, not_true_eq_false, if_false, hdec, hlook, hnow2, if_true]

/-- The toy codec rejects what is not three parts. -/
theorem codecEnv_rejectsMalformed : JwtRejectsMalformed codecEnv := by
  intro token secret now hlen
  show ∃ e, codecVerify token secret now = .error e
  unfold codecVerify codecParse
  split
  · exact ⟨_, rfl⟩
  · next body signature hparse =>
    split at hparse
    · next header b s hsplit =>
      rw [hsplit] at hlen
      simp at hlen
    · simp at hparse

/-- What `codecVerify` accepted: a token of three parts whose signature is the secret and
the claims part. -/
theorem codecVerify_ok (token secret : String) (now : Nat) (claims : JsObject)
    (h : codecVerify token secret now = .ok claims) :
    ∃ body, codecParse token = some (body, escText secret.toList ++ body) := by
  unfold codecVerify at h
  split at h
  · simp at h
  · next body signature hparse =>
    by_cases hsig : signature = escText secret.toList ++ body
    · exact ⟨body, by rw [hparse, hsig]⟩
    · rw [if_pos (show signature ≠ escText secret.toList ++ body from hsig)] at h
      cases h

/-- The toy codec rejects an issued token with one character changed. -/
theorem codecEnv_rejectsTampered : JwtRejectsTampered codecEnv := by
  intro payload secret expiresIn now token tampered hsign hchanged now2
  show ∃ e, codecVerify tampered secret now2 = .error e
  cases hver : codecVerify tampered secret now2 with
  | error e => exact ⟨e, rfl⟩
  | ok claims =>
    exfalso
    obtain ⟨span, _, htoken⟩ := codecSign_ok payload secret expiresIn now token hsign
    obtain ⟨body, hparse⟩ := codecVerify_ok tampered secret now2 claims hver
    have htam := codecParse_some tampered _ _ hparse
    obtain ⟨before, c, d, after, hcd, h1, h2⟩ := hchanged
    have htok : token.toList = codecToken secret
        (payload ++ [("iat", .num (now / 1000)), ("exp", .num (now / 1000 + span))]) := by
      rw [htoken]
      rfl
    rw [htok] at h1
    rw [htam] at h2
    unfold codecToken at h1
    have hlen1 := congrArg List.length h1
    have hlen2 := congrArg List.length h2
    simp only [List.length_cons, List.length_append] at hlen1 hlen2
    have hbody := doubled_part_eq ['J', '.'] ('.' :: escText secret.toList)
      (encObject (payload ++ [("iat", .num (now / 1000)), ("exp", .num (now / 1000 + span))]))
      body before after c d (by omega) (by simpa using h1) (by simpa using h2)
    rw [← hbody] at h2
    have := h1.symm.trans h2
    simp only [List.append_cancel_left_eq, List.cons.injEq, and_true] at this
    exact hcd this

/-! ## The tokens of `utils/jwt.js` -/

/-- Claim C22. Under the contract of `jsonwebtoken` on issued tokens, decoding a token that
`generateAccessToken(p)` returned gives exactly `userId`, `email` and `role` of `p`,
`type` `access`, and the `iat` and `exp` of the signature, and nothing else; decoding a
token that `generateRefreshToken` returned gives exactly the `userId`, `type` `refresh`,
the `jti` drawn, `iat` and `exp`; and `verifyToken` returns the same claims at every time
before `exp`. -/
theorem issued_token_decodes (env : Env) (hlib : JwtReturnsIssued env) (now : Nat) :
    (∀ p token, generateAccessToken env now p = .ok token →
      ∃ exp, now / 1000 ≤ exp
        ∧ decodeToken env token = some
            [("userId", .str p.userId), ("email", .str p.email), ("role", .str p.role),
             ("type", .str "access"), ("iat", .num (now / 1000)), ("exp", .num exp)]
        ∧ ∀ now2, now2 / 1000 < exp →
            verifyToken env now2 token = some
              [("userId", .str p.userId), ("email", .str p.email), ("role", .str p.role),
               ("type", .str "access"), ("iat", .num (now / 1000)), ("exp", .num exp)])
    ∧ (∀ jti userId token, generateRefreshToken env now jti userId = .ok token →
      ∃ exp, now / 1000 ≤ exp
        ∧ decodeToken env token = some
            [("userId", .str userId), ("type", .str "refresh"), ("jti", .str jti),
             ("iat", .num (now / 1000)), ("exp", .num exp)]
        ∧ ∀ now2, now2 / 1000 < exp →
            verifyToken env now2 token = some
              [("userId", .str userId), ("type", .str "refresh"), ("jti", .str jti),
               ("iat", .num (now / 1000)), ("exp", .num exp)]) := by
  constructor
  · intro p token h
    obtain ⟨exp, hle, hdec, hver⟩ := hlib _ _ _ _ _ h
    refine ⟨exp, hle, hdec, ?_⟩
    intro now2 hnow2
    show (match env.jwtVerify token env.jwt.secret now2 with
      | .ok decoded => some decoded
      | .error _ => none) = _
    rw [hver now2 hnow2]
    rfl
  · intro jti userId token h
    obtain ⟨exp, hle, hdec, hver⟩ := hlib _ _ _ _ _ h
    refine ⟨exp, hle, hdec, ?_⟩
    intro now2 hnow2
    show (match env.jwtVerify token env.jwt.secret now2 with
      | .ok decoded => some decoded
      | .error _ => none) = _
    rw [hver now2 hnow2]
    rfl

/-- Witness of C22: the toy codec keeps the contract, issues `codecAccessToken` for Ann at
5000 ms, and the token decodes to her claims. -/
theorem issued_token_decodes_witness :
    JwtReturnsIssued codecEnv
    ∧ generateAccessToken codecEnv 5000 codecAnn = .ok codecAccessToken
    ∧ decodeToken codecEnv codecAccessToken = some
        [("userId", .str "u1"), ("email", .str "ann@example.com"), ("role", .str "user"),
         ("type", .str "access"), ("iat", .num 5), ("exp", .num 3605)]
    ∧ ∃ exp, 5000 / 1000 ≤ exp
        ∧ decodeToken codecEnv codecAccessToken = some
            [("userId", .str codecAnn.userId), ("email", .str codecAnn.email),
             ("role", .str codecAnn.role), ("type", .str "access"),
             ("iat", .num (5000 / 1000)), ("exp", .num exp)]
        ∧ ∀ now2, now2 / 1000 < exp →
            verifyToken codecEnv now2 codecAccessToken = some
              [("userId", .str codecAnn.userId), ("email", .str codecAnn.email),
               ("role", .str codecAnn.role), ("type", .str "access"),
               ("iat", .num (5000 / 1000)), ("exp", .num exp)] :=
  ⟨codecEnv_returnsIssued, rfl, rfl,
    (issued_token_decodes codecEnv codecEnv_returnsIssued 5000).1 codecAnn codecAccessToken rfl⟩

/-- Claim C23. Under the contract of `jsonwebtoken` on issued tokens, two tokens that
`generateRefreshToken` returned for the same `userId` with two different `jti` are
different, whatever the two times of issue, equal or not. -/
theorem refresh_tokens_differ (env : Env) (hlib : JwtReturnsIssued env) (now1 now2 : Nat)
    (jti1 jti2 userId token1 token2 : String)
    (h1 : generateRefreshToken env now1 jti1 userId = .ok token1)
    (h2 : generateRefreshToken env now2 jti2 userId = .ok token2)
    (hjti : jti1 ≠ jti2) : token1 ≠ token2 := by
  intro heq
  obtain ⟨exp1, _, hdec1, _⟩ := hlib _ _ _ _ _ h1
  obtain ⟨exp2, _, hdec2, _⟩ := hlib _ _ _ _ _ h2
  rw [heq, hdec2] at hdec1
  simp only [Option.some.injEq, List.cons_append, List.nil_append, List.cons.injEq,
    Prod.mk.injEq, JsVal.str.injEq, true_and] at hdec1
  exact hjti hdec1.1.symm

/-- Witness of C23: the tokens that the toy codec issues for Ann at 5000 ms with `j1` and
with `j2`. -/
theorem refresh_tokens_differ_witness :
    generateRefreshToken codecEnv 5000 "j1" "u1" = .ok (codecRefreshToken "j1")
    ∧ generateRefreshToken codecEnv 5000 "j2" "u1" = .ok (codecRefreshToken "j2")
    ∧ codecRefreshToken "j1" ≠ codecRefreshToken "j2" :=
  ⟨rfl, rfl, refresh_tokens_differ codecEnv codecEnv_returnsIssued 5000 5000 "j1" "j2" "u1"
    (codecRefreshToken "j1") (codecRefreshToken "j2") rfl rfl (by decide)⟩

/-- Claim C24. Function `verifyToken` is total: it returns the claims that `jwt.verify` returns and
`null` for whatever `jwt.verify` throws. Under the contract of `jsonwebtoken` on input that
is not three parts separated by dots, and on issued tokens with one character changed, it
returns `null` for every such text and for every token of `generateAccessToken` or
`generateRefreshToken` with one character changed, at every time. -/
theorem verifyToken_never_throws (env : Env) (hmal : JwtRejectsMalformed env)
    (htam : JwtRejectsTampered env) :
    (∀ now token,
      (∀ claims, env.jwtVerify token env.jwt.secret now = .ok claims →
        verifyToken env now token = some claims)
      ∧ (∀ e, env.jwtVerify token env.jwt.secret now = .error e →
        verifyToken env now token = none))
    ∧ (∀ now token, (splitChar '.' token.toList).length ≠ 3 →
        verifyToken env now token = none)
    ∧ (∀ now p token tampered now2, generateAccessToken env now p = .ok token →
        OneCharChanged token tampered → verifyToken env now2 tampered = none)
    ∧ (∀ now jti userId token tampered now2,
        generateRefreshToken env now jti userId = .ok token →
        OneCharChanged token tampered → verifyToken env now2 tampered = none) := by
  have hnone : ∀ now token, (∃ e, env.jwtVerify token env.jwt.secret now = .error e) →
      verifyToken env now token = none := by
    intro now token ⟨e, he⟩
    show (match env.jwtVerify token env.jwt.secret now with
      | .ok decoded => some decoded
      | .error _ => none) = _
    rw [he]
  refine ⟨?_, ?_, ?_, ?_⟩
  · intro now token
    constructor
    · intro claims h
      show (match env.jwtVerify token env.jwt.secret now with
        | .ok decoded => some decoded
        | .error _ => none) = _
      rw [h]
    · intro e h
      exact hnone now token ⟨e, h⟩
  · intro now token h
    exact hnone now token (hmal token env.jwt.secret now h)
  · intro now p token tampered now2 h hchanged
    exact hnone now2 tampered (htam _ _ _ _ _ _ h hchanged now2)
  · intro now jti userId token tampered now2 h hchanged
    exact hnone now2 tampered (htam _ _ _ _ _ _ h hchanged now2)

/-- Witness of C24: the toy codec keeps both contracts; `verifyToken` returns `null` for
`invalid-token` and for `codecTampered`, the access token of Ann with `X` for its first
character, and the claims for the token itself. -/
theorem verifyToken_never_throws_witness :
    JwtRejectsMalformed codecEnv ∧ JwtRejectsTampered codecEnv
    ∧ verifyToken codecEnv 6000 "invalid-token" = none
    ∧ OneCharChanged codecAccessToken codecTampered
    ∧ verifyToken codecEnv 6000 codecTampered = none
    ∧ verifyToken codecEnv 6000 codecAccessToken ≠ none :=
  ⟨codecEnv_rejectsMalformed, codecEnv_rejectsTampered,
    (verifyToken_never_throws codecEnv codecEnv_rejectsMalformed codecEnv_rejectsTampered).2.1
      6000 "invalid-token" (by decide),
    ⟨[], 'J', 'X', codecAccessToken.toList.tail, by decide, rfl, rfl⟩,
    (verifyToken_never_throws codecEnv codecEnv_rejectsMalformed codecEnv_rejectsTampered).2.2.1
      5000 codecAnn codecAccessToken codecTampered 6000 rfl
      ⟨[], 'J', 'X', codecAccessToken.toList.tail, by decide, rfl, rfl⟩,
    by decide⟩

end AuthApi
